import Mathlib

/-!
# kubec: switching the current context of a kubeconfig file

A shallow embedding of `utils/kubernetes.go`, `utils/common.go` and `cmd/root.go`.

* Go strings are Lean strings (sequences of code points; the byte order Go uses for
  `<` agrees with the code point order on well-formed UTF-8).
* The text of a file is represented by the YAML node tree it denotes (`Yaml`), the
  form the YAML library decodes from.
* Library code the repository calls (`yaml.Marshal`, `filepath.Join`, `os.UserHomeDir`,
  the Unicode fold tables beyond ASCII) is a field of the environment or a parameter:
  nothing is assumed of the text `yaml.Marshal` writes, and a statement that needs the
  text to read back says so.
* `log.Fatalf` ends the process: operations that may call it return an `Outcome`.
-/

set_option autoImplicit false
set_option linter.dupNamespace false

namespace Kubec

/-! ## YAML node trees -/

/-- The resolved tag of a scalar node. -/
inductive Tag
  | null
  | bool
  | str
  | int
  | float
deriving DecidableEq, Repr

/-- A YAML node: a scalar with its resolved tag and its text, a sequence, or a mapping
with string keys, in document order. -/
inductive Yaml
  | scalar (tag : Tag) (value : String)
  | seq (items : List Yaml)
  | map (entries : List (String × Yaml))

/-- The entries of a mapping node. -/
abbrev Entries := List (String × Yaml)

mutual
/-- No mapping inside the node repeats a key (the decoder rejects a repeated key in
every mapping it visits). -/
def Yaml.uniqueKeys : Yaml → Bool
  | .scalar _ _ => true
  | .seq items => uniqueKeysList items
  | .map entries => decide ((entries.map Prod.fst).Nodup) && uniqueKeysEntries entries
/-- Unique keys in every node of a list. -/
def uniqueKeysList : List Yaml → Bool
  | [] => true
  | y :: ys => y.uniqueKeys && uniqueKeysList ys
/-- Unique keys in every value of a list of entries. -/
def uniqueKeysEntries : List (String × Yaml) → Bool
  | [] => true
  | (_, y) :: es => y.uniqueKeys && uniqueKeysEntries es
end

/-- A scalar node resolved as null. -/
def Yaml.isNull : Yaml → Bool
  | .scalar .null _ => true
  | _ => false

/-- The entries of a node when it is a mapping, nothing otherwise. -/
def Yaml.entries : Yaml → Entries
  | .map es => es
  | _ => []

/-! ## The configuration types (`utils/kubernetes.go`, lines 14-76) -/

structure ContextInfo where
  Cluster : String
  User : String
  Namespace : String

structure Context where
  Name : String
  Context : ContextInfo

structure ClusterInfo where
  Server : String
  CertificateAuthority : String
  CertificateAuthorityData : String
  InsecureSkipTLSVerify : Bool

structure Cluster where
  Name : String
  Cluster : ClusterInfo

structure ExecEnvVar where
  Name : String
  Value : String

structure ExecConfig where
  APIVersion : String
  Command : String
  Args : List String
  Env : List ExecEnvVar
  InteractiveMode : String
  ProvideClusterInfo : Bool

structure UserInfo where
  Token : String
  ClientCertificate : String
  ClientKey : String
  ClientCertificateData : String
  ClientKeyData : String
  Username : String
  Password : String
  Exec : Option ExecConfig
  AuthProvider : Entries

structure User where
  Name : String
  User : UserInfo

structure KubeConfig where
  ApiVersion : String
  Kind : String
  CurrentContext : String
  Contexts : List Context
  Clusters : List Cluster
  Users : List User
  Preferences : Entries

/-! ## Decoding (`yaml.Unmarshal` into the types above) -/

/-- Decoding into a Go `string`: a null leaves the zero value, any other scalar gives
its text, a collection is a type error. -/
def decodeString : Yaml → Except String String
  | .scalar .null _ => .ok ""
  | .scalar _ v => .ok v
  | .seq _ => .error "cannot unmarshal !!seq into string"
  | .map _ => .error "cannot unmarshal !!map into string"

/-- Decoding into a Go `bool`: a null leaves `false`, a boolean scalar gives its
value, a string scalar in one of the YAML 1.1 spellings is accepted. -/
def decodeBool : Yaml → Except String Bool
  | .scalar .null _ => .ok false
  | .scalar .bool v =>
    if v = "true" ∨ v = "True" ∨ v = "TRUE" then .ok true
    else if v = "false" ∨ v = "False" ∨ v = "FALSE" then .ok false
    else .error "cannot decode !!bool"
  | .scalar .str v =>
    if v ∈ ["y", "Y", "yes", "Yes", "YES", "on", "On", "ON"] then .ok true
    else if v ∈ ["n", "N", "no", "No", "NO", "off", "Off", "OFF"] then .ok false
    else .error "cannot unmarshal !!str into bool"
  | .scalar _ _ => .error "cannot unmarshal scalar into bool"
  | .seq _ => .error "cannot unmarshal !!seq into bool"
  | .map _ => .error "cannot unmarshal !!map into bool"

/-- Decode every node of a list, in order. -/
def decodeAll {α : Type} (dec : Yaml → Except String α) : List Yaml → Except String (List α)
  | [] => .ok []
  | y :: ys =>
    match dec y with
    | .error e => .error e
    | .ok a =>
      match decodeAll dec ys with
      | .error e => .error e
      | .ok as => .ok (a :: as)

/-- Decoding into a Go slice: a null gives the nil slice, a sequence is decoded item by
item (an item that is null is skipped), anything else is a type error. -/
def decodeSeq {α : Type} (dec : Yaml → Except String α) : Yaml → Except String (List α)
  | .scalar .null _ => .ok []
  | .scalar _ _ => .error "cannot unmarshal scalar into slice"
  | .seq items => decodeAll dec (items.filter (fun y => !y.isNull))
  | .map _ => .error "cannot unmarshal !!map into slice"

/-- Decoding into a Go struct: a null leaves the zero value, a mapping with a repeated
key is rejected, otherwise the declared fields are read from the entries. -/
def decodeStruct {α : Type} (zero : α) (fields : Entries → Except String α) :
    Yaml → Except String α
  | .scalar .null _ => .ok zero
  | .scalar _ _ => .error "cannot unmarshal scalar into struct"
  | .seq _ => .error "cannot unmarshal !!seq into struct"
  | .map es =>
    if (es.map Prod.fst).Nodup then fields es else .error "mapping key already defined"

/-- One declared field: absent key leaves the zero value; keys that no field declares
are never looked at. -/
def getField {α : Type} (key : String) (zero : α) (dec : Yaml → Except String α)
    (es : Entries) : Except String α :=
  match es.lookup key with
  | none => .ok zero
  | some y => dec y

/-- Decoding into a Go pointer: a null gives nil, anything else allocates. -/
def decodePtr {α : Type} (dec : Yaml → Except String α) (y : Yaml) :
    Except String (Option α) :=
  if y.isNull then .ok none
  else
    match dec y with
    | .error e => .error e
    | .ok a => .ok (some a)

/-- Decoding into `map[string]interface{}`: a repeated key anywhere below is rejected.
The Go value is represented by the nodes it was built from: equal representations are
equal Go values, but the representation also keeps the order of the keys and the text
of the scalars, which the Go value forgets. -/
def decodeIfaceMap : Yaml → Except String Entries
  | .scalar .null _ => .ok []
  | .scalar _ _ => .error "cannot unmarshal scalar into map"
  | .seq _ => .error "cannot unmarshal !!seq into map"
  | .map es => if (Yaml.map es).uniqueKeys then .ok es else .error "mapping key already defined"

def ContextInfo.zero : ContextInfo := ⟨"", "", ""⟩

def decodeContextInfo : Yaml → Except String ContextInfo :=
  decodeStruct ContextInfo.zero fun es =>
    match getField "cluster" "" decodeString es with
    | .error e => .error e
    | .ok c =>
      match getField "user" "" decodeString es with
      | .error e => .error e
      | .ok u =>
        match getField "namespace" "" decodeString es with
        | .error e => .error e
        | .ok n => .ok ⟨c, u, n⟩

def decodeContext : Yaml → Except String Context :=
  decodeStruct ⟨"", ContextInfo.zero⟩ fun es =>
    match getField "name" "" decodeString es with
    | .error e => .error e
    | .ok n =>
      match getField "context" ContextInfo.zero decodeContextInfo es with
      | .error e => .error e
      | .ok c => .ok ⟨n, c⟩

def ClusterInfo.zero : ClusterInfo := ⟨"", "", "", false⟩

def decodeClusterInfo : Yaml → Except String ClusterInfo :=
  decodeStruct ClusterInfo.zero fun es =>
    match getField "server" "" decodeString es with
    | .error e => .error e
    | .ok s =>
      match getField "certificate-authority" "" decodeString es with
      | .error e => .error e
      | .ok ca =>
        match getField "certificate-authority-data" "" decodeString es with
        | .error e => .error e
        | .ok cad =>
          match getField "insecure-skip-tls-verify" false decodeBool es with
          | .error e => .error e
          | .ok i => .ok ⟨s, ca, cad, i⟩

def decodeCluster : Yaml → Except String Cluster :=
  decodeStruct ⟨"", ClusterInfo.zero⟩ fun es =>
    match getField "name" "" decodeString es with
    | .error e => .error e
    | .ok n =>
      match getField "cluster" ClusterInfo.zero decodeClusterInfo es with
      | .error e => .error e
      | .ok c => .ok ⟨n, c⟩

def decodeExecEnvVar : Yaml → Except String ExecEnvVar :=
  decodeStruct ⟨"", ""⟩ fun es =>
    match getField "name" "" decodeString es with
    | .error e => .error e
    | .ok n =>
      match getField "value" "" decodeString es with
      | .error e => .error e
      | .ok v => .ok ⟨n, v⟩

def ExecConfig.zero : ExecConfig := ⟨"", "", [], [], "", false⟩

def decodeExecConfig : Yaml → Except String ExecConfig :=
  decodeStruct ExecConfig.zero fun es =>
    match getField "apiVersion" "" decodeString es with
    | .error e => .error e
    | .ok a =>
      match getField "command" "" decodeString es with
      | .error e => .error e
      | .ok c =>
        match getField "args" [] (decodeSeq decodeString) es with
        | .error e => .error e
        | .ok args =>
          match getField "env" [] (decodeSeq decodeExecEnvVar) es with
          | .error e => .error e
          | .ok env =>
            match getField "interactiveMode" "" decodeString es with
            | .error e => .error e
            | .ok m =>
              match getField "provideClusterInfo" false decodeBool es with
              | .error e => .error e
              | .ok p => .ok ⟨a, c, args, env, m, p⟩

def UserInfo.zero : UserInfo := ⟨"", "", "", "", "", "", "", none, []⟩

def decodeUserInfo : Yaml → Except String UserInfo :=
  decodeStruct UserInfo.zero fun es =>
    match getField "token" "" decodeString es with
    | .error e => .error e
    | .ok t =>
      match getField "client-certificate" "" decodeString es with
      | .error e => .error e
      | .ok cc =>
        match getField "client-key" "" decodeString es with
        | .error e => .error e
        | .ok ck =>
          match getField "client-certificate-data" "" decodeString es with
          | .error e => .error e
          | .ok ccd =>
            match getField "client-key-data" "" decodeString es with
            | .error e => .error e
            | .ok ckd =>
              match getField "username" "" decodeString es with
              | .error e => .error e
              | .ok un =>
                match getField "password" "" decodeString es with
                | .error e => .error e
                | .ok pw =>
                  match getField "exec" none (decodePtr decodeExecConfig) es with
                  | .error e => .error e
                  | .ok ex =>
                    match getField "auth-provider" [] decodeIfaceMap es with
                    | .error e => .error e
                    | .ok ap => .ok ⟨t, cc, ck, ccd, ckd, un, pw, ex, ap⟩

def decodeUser : Yaml → Except String User :=
  decodeStruct ⟨"", UserInfo.zero⟩ fun es =>
    match getField "name" "" decodeString es with
    | .error e => .error e
    | .ok n =>
      match getField "user" UserInfo.zero decodeUserInfo es with
      | .error e => .error e
      | .ok u => .ok ⟨n, u⟩

def KubeConfig.zero : KubeConfig := ⟨"", "", "", [], [], [], []⟩

def decodeKubeConfig : Yaml → Except String KubeConfig :=
  decodeStruct KubeConfig.zero fun es =>
    match getField "apiVersion" "" decodeString es with
    | .error e => .error e
    | .ok a =>
      match getField "kind" "" decodeString es with
      | .error e => .error e
      | .ok k =>
        match getField "current-context" "" decodeString es with
        | .error e => .error e
        | .ok cur =>
          match getField "contexts" [] (decodeSeq decodeContext) es with
          | .error e => .error e
          | .ok ctxs =>
            match getField "clusters" [] (decodeSeq decodeCluster) es with
            | .error e => .error e
            | .ok cls =>
              match getField "users" [] (decodeSeq decodeUser) es with
              | .error e => .error e
              | .ok us =>
                match getField "preferences" [] decodeIfaceMap es with
                | .error e => .error e
                | .ok p => .ok ⟨a, k, cur, ctxs, cls, us, p⟩

/-! ## A reference writer

The node tree of a configuration with every string written as a plain scalar and the
fields in the order of the types. It is the `marshal` of the sample worlds only; the
operations below use the `marshal` of the world they run in. -/

def plainString (s : String) : Yaml := .scalar .str s

def plainBool (b : Bool) : Yaml := .scalar .bool (if b then "true" else "false")

/-- A field tagged `omitempty`: left out when its value is empty. -/
def omitField (key : String) (empty : Bool) (y : Yaml) : Entries :=
  if empty then [] else [(key, y)]

def plainContextInfo (c : ContextInfo) : Yaml :=
  .map ([("cluster", plainString c.Cluster), ("user", plainString c.User)]
    ++ omitField "namespace" (c.Namespace == "") (plainString c.Namespace))

def plainContext (c : Context) : Yaml :=
  .map [("name", plainString c.Name), ("context", plainContextInfo c.Context)]

def plainClusterInfo (c : ClusterInfo) : Yaml :=
  .map ([("server", plainString c.Server)]
    ++ omitField "certificate-authority" (c.CertificateAuthority == "")
        (plainString c.CertificateAuthority)
    ++ omitField "certificate-authority-data" (c.CertificateAuthorityData == "")
        (plainString c.CertificateAuthorityData)
    ++ omitField "insecure-skip-tls-verify" (!c.InsecureSkipTLSVerify)
        (plainBool c.InsecureSkipTLSVerify))

def plainCluster (c : Cluster) : Yaml :=
  .map [("name", plainString c.Name), ("cluster", plainClusterInfo c.Cluster)]

def plainExecEnvVar (v : ExecEnvVar) : Yaml :=
  .map [("name", plainString v.Name), ("value", plainString v.Value)]

def plainExecConfig (c : ExecConfig) : Yaml :=
  .map (omitField "apiVersion" (c.APIVersion == "") (plainString c.APIVersion)
    ++ omitField "command" (c.Command == "") (plainString c.Command)
    ++ omitField "args" c.Args.isEmpty (.seq (c.Args.map plainString))
    ++ omitField "env" c.Env.isEmpty (.seq (c.Env.map plainExecEnvVar))
    ++ omitField "interactiveMode" (c.InteractiveMode == "") (plainString c.InteractiveMode)
    ++ omitField "provideClusterInfo" (!c.ProvideClusterInfo) (plainBool c.ProvideClusterInfo))

def plainUserInfo (u : UserInfo) : Yaml :=
  .map (omitField "token" (u.Token == "") (plainString u.Token)
    ++ omitField "client-certificate" (u.ClientCertificate == "")
        (plainString u.ClientCertificate)
    ++ omitField "client-key" (u.ClientKey == "") (plainString u.ClientKey)
    ++ omitField "client-certificate-data" (u.ClientCertificateData == "")
        (plainString u.ClientCertificateData)
    ++ omitField "client-key-data" (u.ClientKeyData == "") (plainString u.ClientKeyData)
    ++ omitField "username" (u.Username == "") (plainString u.Username)
    ++ omitField "password" (u.Password == "") (plainString u.Password)
    ++ (match u.Exec with
        | none => []
        | some e => [("exec", plainExecConfig e)])
    ++ omitField "auth-provider" u.AuthProvider.isEmpty (.map u.AuthProvider))

def plainUser (u : User) : Yaml :=
  .map [("name", plainString u.Name), ("user", plainUserInfo u.User)]

def plainKubeConfig (c : KubeConfig) : Yaml :=
  .map ([("apiVersion", plainString c.ApiVersion),
         ("kind", plainString c.Kind),
         ("current-context", plainString c.CurrentContext),
         ("contexts", .seq (c.Contexts.map plainContext)),
         ("clusters", .seq (c.Clusters.map plainCluster)),
         ("users", .seq (c.Users.map plainUser))]
    ++ omitField "preferences" c.Preferences.isEmpty (.map c.Preferences))

/-! ## Files, environment, process outcome -/

/-- What a file holds: text that is not well-formed YAML (with the parser's message),
or the node tree of a document. An empty file is the null document. -/
inductive Content
  | malformed (err : String)
  | doc (root : Yaml)

/-- How a write to a file fails: with the error `msg`, and leaving `left`. The file
is opened with `O_TRUNC`: when it cannot be opened it stays as it was (`left = none`);
when it was opened and the write then fails, it holds what got written, an empty or cut
text (`left = some c`). -/
structure WriteFault where
  msg : String
  left : Option Content

/-- A file: its content, the error, if any, that reading it reports, and the way, if
any, in which writing it fails. -/
structure File where
  content : Content
  readErr : Option String
  writeFault : Option WriteFault

/-- The world an operation runs in: the environment variables, the result of
`os.UserHomeDir`, the platform's `filepath.Join`, the content of the text that
`yaml.Marshal` writes for a configuration, and the files by path. -/
structure World where
  env : List (String × String)
  userHomeDir : Except String String
  pathJoin : List String → String
  marshal : KubeConfig → Content
  fs : String → Option File

/-- The result of an operation that may call `log.Fatalf`: it returns, or the process
logs the message and exits with status 1. -/
inductive Outcome (α : Type)
  | ret (a : α)
  | fatal (msg : String)

/-- Go `os.Getenv`: the value of the variable, empty when it is not set. -/
def Getenv (w : World) (key : String) : String :=
  (w.env.lookup key).getD ""

/-- Go `yaml.Unmarshal(data, &config)`. -/
def yamlUnmarshal : Content → Except String KubeConfig
  | .malformed e => .error ("yaml: " ++ e)
  | .doc root => decodeKubeConfig root

/-- Go `yaml.Marshal(config)`: never fails on these types; the text it writes is
the one the world gives. -/
def yamlMarshal (w : World) (c : KubeConfig) : Except String Content :=
  .ok (w.marshal c)

/-- The world in which `path` holds the file `f`. -/
def World.put (w : World) (path : String) (f : File) : World :=
  { w with fs := fun q => if q = path then some f else w.fs q }

/-- Go `ioutil.WriteFile(path, data, 0644)`: the error it returns, if any, and the
world it leaves. A path that holds no file gets a fresh one; a write that fails leaves
the file as its fault says. -/
def writeFile (w : World) (path : String) (data : Content) : Option String × World :=
  match w.fs path with
  | none => (none, w.put path ⟨data, none, none⟩)
  | some f =>
    match f.writeFault with
    | none => (none, w.put path { f with content := data })
    | some ⟨msg, none⟩ => (some msg, w)
    | some ⟨msg, some c⟩ => (some msg, w.put path { f with content := c })

/-! ## `utils/common.go` and `utils/kubernetes.go` -/

def GetHomeDir (w : World) : Outcome String :=
  match w.userHomeDir with
  | .error e => .fatal ("Failed to get home directory: " ++ e)
  | .ok homeDir => .ret homeDir

def GetKubeConfigPath (w : World) : Outcome String :=
  let kubeconfigPath := Getenv w "KUBECONFIG"
  if kubeconfigPath ≠ "" then .ret kubeconfigPath
  else
    match GetHomeDir w with
    | .fatal m => .fatal m
    | .ret homeDir => .ret (w.pathJoin [homeDir, ".kube", "config"])

def loadKubeConfig (w : World) : Outcome (Except String KubeConfig) :=
  match GetKubeConfigPath w with
  | .fatal m => .fatal m
  | .ret configPath =>
    match w.fs configPath with
    | none => .ret (.error ("kubeconfig file not found: " ++ configPath))
    | some f =>
      match f.readErr with
      | some err => .ret (.error ("failed to read kubeconfig file: " ++ err))
      | none =>
        match yamlUnmarshal f.content with
        | .error err => .ret (.error ("failed to parse kubeconfig file: " ++ err))
        | .ok config => .ret (.ok config)

/-- Go's `<` on strings. -/
def lexLess : List Nat → List Nat → Bool
  | _, [] => false
  | [], _ :: _ => true
  | a :: as, b :: bs => a < b || (a == b && lexLess as bs)

def runes (s : String) : List Nat := s.data.map Char.toNat

def stringLess (a b : String) : Bool := lexLess (runes a) (runes b)

/-- Insertion of one string into a sorted list, before the first larger one. -/
def insertString (x : String) : List String → List String
  | [] => [x]
  | y :: ys => if stringLess x y then x :: y :: ys else y :: insertString x ys

/-- Go `sort.Strings`: the strings in increasing order. -/
def sortStrings : List String → List String
  | [] => []
  | x :: xs => insertString x (sortStrings xs)

def GetContexts (w : World) : Outcome (List String) :=
  match loadKubeConfig w with
  | .fatal m => .fatal m
  | .ret (.error err) => .fatal ("failed to load kubeconfig: " ++ err)
  | .ret (.ok config) => .ret (sortStrings (config.Contexts.map (fun context => context.Name)))

def GetCurrentContext (w : World) : Outcome String :=
  match loadKubeConfig w with
  | .fatal m => .fatal m
  | .ret (.error err) => .fatal ("failed to load kubeconfig: " ++ err)
  | .ret (.ok config) => .ret config.CurrentContext

/-- The result of `SetCurrentContext`: the returned error (`none` for nil) and the
world it leaves. -/
def SetCurrentContext (w : World) (contextName : String) : Outcome (Option String × World) :=
  match loadKubeConfig w with
  | .fatal m => .fatal m
  | .ret (.error err) => .ret (some ("failed to load kubeconfig: " ++ err), w)
  | .ret (.ok config) =>
    let found := config.Contexts.any (fun context => context.Name == contextName)
    if !found then .ret (some ("context \x27" ++ contextName ++ "\x27 not found"), w)
    else
      let config := { config with CurrentContext := contextName }
      match yamlMarshal w config with
      | .error err => .ret (some ("failed to prepare kubeconfig write: " ++ err), w)
      | .ok data =>
        match GetKubeConfigPath w with
        | .fatal m => .fatal m
        | .ret configPath =>
          match writeFile w configPath data with
          | (some err, w1) => .ret (some ("failed to write kubeconfig: " ++ err), w1)
          | (none, w1) => .ret (none, w1)

/-! ## `cmd/root.go`: `shouldRunDirectContextSwitch` -/

/-- Go `unicode.SimpleFold` below 0x80 (the library's `asciiFold` table): a letter goes to
its other case, except that `k` goes to the Kelvin sign and `s` to the long s. -/
def asciiFold (r : Nat) : Nat :=
  if 65 ≤ r ∧ r ≤ 90 then r + 32
  else if r = 107 then 0x212A
  else if r = 115 then 0x17F
  else if 97 ≤ r ∧ r ≤ 122 then r - 32
  else r

/-- Go `unicode.SimpleFold`. The long s and the Kelvin sign close the orbits of `s` and
`k`; `orbit` stands for the library tables that give the next rune of every other
orbit, none of which contains a rune below 0x80. -/
def SimpleFold (orbit : Nat → Nat) (r : Nat) : Nat :=
  if r < 128 then asciiFold r
  else if r = 0x17F then 83
  else if r = 0x212A then 75
  else orbit r

/-- The loop `for r != sr && r < tr { r = unicode.SimpleFold(r) }` of
`strings.EqualFold`, bounded by the number of turns given. -/
def foldLoop (orbit : Nat → Nat) : Nat → Nat → Nat → Nat → Nat
  | 0, _, _, r => r
  | fuel + 1, sr, tr, r =>
    if r ≠ sr ∧ r < tr then foldLoop orbit fuel sr tr (SimpleFold orbit r) else r

/-- One step of `strings.EqualFold`: the two runes are equal, or differ by ASCII case,
or the walk along the orbit of the smaller one reaches the larger one. The walk visits
a rune at most once, so 0x110000 turns (the number of code points) always suffice. -/
def equalFoldRune (orbit : Nat → Nat) (sr0 tr0 : Nat) : Bool :=
  if tr0 = sr0 then true
  else
    let sr := if tr0 < sr0 then tr0 else sr0
    let tr := if tr0 < sr0 then sr0 else tr0
    if tr < 128 then decide (65 ≤ sr ∧ sr ≤ 90 ∧ tr = sr + 32)
    else foldLoop orbit 0x110000 sr tr (SimpleFold orbit sr) == tr

def equalFoldRunes (orbit : Nat → Nat) : List Nat → List Nat → Bool
  | [], t => t.isEmpty
  | _ :: _, [] => false
  | sr :: s, tr :: t => equalFoldRune orbit sr tr && equalFoldRunes orbit s t

/-- Go `strings.EqualFold(s, t)`. -/
def EqualFold (orbit : Nat → Nat) (s t : String) : Bool :=
  equalFoldRunes orbit (runes s) (runes t)

def excludedArgs : List String := ["help", "version", "--help", "-h", "--version", "-v"]

/-- The loop over `excludedArgs`: `false` at the first match. -/
def scanExcluded (orbit : Nat → Nat) (arg : String) : List String → Bool
  | [] => true
  | excluded :: rest =>
    if EqualFold orbit arg excluded then false else scanExcluded orbit arg rest

def shouldRunDirectContextSwitch (orbit : Nat → Nat) (arg : String) : Bool :=
  scanExcluded orbit arg excludedArgs

/-! ## `cmd/root.go`: the root command -/

/-- The terminal libraries the command calls: `color.GreenString`, `color.RedString`, and
the run of a `promptui.Select` over the items with the cursor at a position, which gives
the selected item or an error. -/
structure Terminal where
  green : String → String
  red : String → String
  selectRun : List String → Nat → Except String String

/-- What a run of the command leaves: the text printed, the names `SetCurrentContext`
was called with, and the world. -/
structure RunResult where
  out : List String
  switched : List String
  world : World

/-- The loop `for _, c := range contexts`: some element equals `contextName`. -/
def containsName (contexts : List String) (contextName : String) : Bool :=
  contexts.any (fun c => c == contextName)

/-- The index of the first element equal to `currentContext`, if there is one. -/
def firstIndex (currentContext : String) : List String → Option Nat
  | [] => none
  | context :: rest =>
    if context == currentContext then some 0
    else (firstIndex currentContext rest).map (fun i => i + 1)

/-- The branch of `rootCmd.Run` for a context name given as argument. -/
def directSwitch (ui : Terminal) (contextName : String) (w : World) : Outcome RunResult :=
  match GetContexts w with
  | .fatal m => .fatal m
  | .ret contexts =>
    let found := containsName contexts contextName
    if !found then
      .ret ⟨["Context \x27" ++ ui.red contextName ++ "\x27 not found\n"], [], w⟩
    else
      match SetCurrentContext w contextName with
      | .fatal m => .fatal m
      | .ret (some err, _) => .fatal ("Failed to switch context: " ++ err)
      | .ret (none, w1) =>
        .ret ⟨["Switched to context \x27" ++ ui.green contextName ++ "\x27\n"],
          [contextName], w1⟩

/-- The interactive branch of `rootCmd.Run`. -/
def interactiveSwitch (ui : Terminal) (w : World) : Outcome RunResult :=
  match GetContexts w with
  | .fatal m => .fatal m
  | .ret contexts =>
    if contexts.length = 0 then .ret ⟨["No available contexts found\n"], [], w⟩
    else
      match GetCurrentContext w with
      | .fatal m => .fatal m
      | .ret currentContext =>
        let cursor :=
          if currentContext ≠ "" then (firstIndex currentContext contexts).getD 0 else 0
        match ui.selectRun contexts cursor with
        | .error err => .ret ⟨["Selection cancelled: " ++ err ++ "\n"], [], w⟩
        | .ok selectedContext =>
          match SetCurrentContext w selectedContext with
          | .fatal m => .fatal m
          | .ret (some err, _) => .fatal ("Failed to switch context: " ++ err)
          | .ret (none, w1) =>
            .ret ⟨["Switched to context \x27" ++ ui.green selectedContext ++ "\x27\n"],
              [selectedContext], w1⟩

/-- The function `Run` of `rootCmd`, with the flag `showCurrent` and the arguments. -/
def rootCmdRun (orbit : Nat → Nat) (ui : Terminal) (showCurrent : Bool) (args : List String)
    (w : World) : Outcome RunResult :=
  if showCurrent then
    match GetCurrentContext w with
    | .fatal m => .fatal m
    | .ret currentContext =>
      if currentContext ≠ "" then
        .ret ⟨["Current context: " ++ ui.green currentContext ++ "\n"], [], w⟩
      else .ret ⟨["No current context is set\n"], [], w⟩
  else
    match args with
    | contextName :: _ =>
      if shouldRunDirectContextSwitch orbit contextName then directSwitch ui contextName w
      else interactiveSwitch ui w
    | [] => interactiveSwitch ui w

/-! ## Notions the statements use -/

/-- Simple case folding of a rune, as far as it reaches ASCII: an upper case ASCII
letter, the Kelvin sign and the long s go to their lower case ASCII letter; every other
rune is left alone (its folding is never an ASCII letter other than itself). -/
def caseFold (r : Nat) : Nat :=
  if 65 ≤ r ∧ r ≤ 90 then r + 32
  else if r = 0x212A then 107
  else if r = 0x17F then 115
  else r

/-- The text `sub` occurs in `msg`. -/
def Occurs (sub msg : String) : Prop := ∃ before after, msg = before ++ sub ++ after

/-- Go `ioutil.WriteFile` on the configuration file reports no error. -/
def configWritable (w : World) : Bool :=
  match GetKubeConfigPath w with
  | .fatal _ => false
  | .ret configPath =>
    match w.fs configPath with
    | none => true
    | some f => f.writeFault.isNone

/-- The root node of the configuration file, when the file holds a document. -/
def configRoot (w : World) : Option Yaml :=
  match GetKubeConfigPath w with
  | .fatal _ => none
  | .ret configPath =>
    match w.fs configPath with
    | some ⟨.doc root, _, _⟩ => some root
    | _ => none

/-- The content of the configuration file, when there is one. -/
def configContent (w : World) : Option Content :=
  match GetKubeConfigPath w with
  | .fatal _ => none
  | .ret configPath => (w.fs configPath).map (fun f => f.content)

/-- The text `yaml.Marshal` writes for `c` reads back, through `yaml.Unmarshal`, as `c`. -/
def readsBack (w : World) (c : KubeConfig) : Prop :=
  yamlUnmarshal (w.marshal c) = .ok c

/-- The message of the error `SetCurrentContext` returns for a name it does not find. -/
def notFoundMessage (contextName : String) : String :=
  "context \x27" ++ contextName ++ "\x27 not found"

/-! ## Sample worlds -/

def joinSlash (parts : List String) : String := "/".intercalate parts

def sampleContext (name : String) : Yaml :=
  .map [("name", .scalar .str name),
        ("context", .map [("cluster", .scalar .str "c1"), ("user", .scalar .str "u1")])]

/-- The document of `TestSetCurrentContext`, with a cluster that carries a `proxy-url`
and a top-level `extensions` list, two keys the configuration types do not declare. -/
def sampleRoot : Yaml :=
  .map [("apiVersion", .scalar .str "v1"),
        ("kind", .scalar .str "Config"),
        ("current-context", .scalar .str "old-context"),
        ("contexts", .seq [sampleContext "old-context", sampleContext "new-context"]),
        ("clusters", .seq [.map [("name", .scalar .str "c1"),
            ("cluster", .map [("server", .scalar .str "https://c1"),
                              ("proxy-url", .scalar .str "http://proxy")])]]),
        ("users", .seq [.map [("name", .scalar .str "u1"),
            ("user", .map [("token", .scalar .str "t")])]]),
        ("extensions", .seq [.map [("name", .scalar .str "note")]])]

def sampleConfig : KubeConfig :=
  { ApiVersion := "v1", Kind := "Config", CurrentContext := "old-context",
    Contexts := [⟨"old-context", ⟨"c1", "u1", ""⟩⟩, ⟨"new-context", ⟨"c1", "u1", ""⟩⟩],
    Clusters := [⟨"c1", ⟨"https://c1", "", "", false⟩⟩],
    Users := [⟨"u1", ⟨"t", "", "", "", "", "", "", none, []⟩⟩],
    Preferences := [] }

/-- The marshal of the sample worlds: the reference writer. -/
def plainMarshal (c : KubeConfig) : Content := .doc (plainKubeConfig c)

/-- A world whose `KUBECONFIG` names the file `f`. -/
def worldWithFile (f : File) : World :=
  { env := [("KUBECONFIG", "/tmp/kube/config")],
    userHomeDir := .ok "/home/dev",
    pathJoin := joinSlash,
    marshal := plainMarshal,
    fs := fun p => if p = "/tmp/kube/config" then some f else none }

/-- A world whose `KUBECONFIG` names a readable, writable file holding `root`. -/
def worldWith (root : Yaml) : World := worldWithFile ⟨.doc root, none, none⟩

/-- The sample document in a file that can be read but not written. -/
def readOnlyWorld : World :=
  worldWithFile
    ⟨.doc sampleRoot, none, some ⟨"open /tmp/kube/config: permission denied", none⟩⟩

def sampleWorld : World := worldWith sampleRoot

/-- The contexts `b`, `a`, `c`, in this order. -/
def bacRoot : Yaml :=
  .map [("apiVersion", .scalar .str "v1"),
        ("kind", .scalar .str "Config"),
        ("current-context", .scalar .str "a"),
        ("contexts", .seq [sampleContext "b", sampleContext "a", sampleContext "c"])]

def bacConfig : KubeConfig :=
  { ApiVersion := "v1", Kind := "Config", CurrentContext := "a",
    Contexts := [⟨"b", ⟨"c1", "u1", ""⟩⟩, ⟨"a", ⟨"c1", "u1", ""⟩⟩, ⟨"c", ⟨"c1", "u1", ""⟩⟩],
    Clusters := [], Users := [], Preferences := [] }

/-- A document whose current context names no declared context. -/
def danglingRoot : Yaml :=
  .map [("apiVersion", .scalar .str "v1"),
        ("kind", .scalar .str "Config"),
        ("current-context", .scalar .str "ghost"),
        ("contexts", .seq [sampleContext "dev"])]

def danglingConfig : KubeConfig :=
  { ApiVersion := "v1", Kind := "Config", CurrentContext := "ghost",
    Contexts := [⟨"dev", ⟨"c1", "u1", ""⟩⟩],
    Clusters := [], Users := [], Preferences := [] }

/-- A world with no configuration file at the default location. -/
def emptyWorld : World :=
  { env := [], userHomeDir := .ok "/home/dev", pathJoin := joinSlash,
    marshal := plainMarshal, fs := fun _ => none }

/-- A document with no `current-context` key. -/
def unsetRoot : Yaml :=
  .map [("apiVersion", .scalar .str "v1"),
        ("kind", .scalar .str "Config"),
        ("contexts", .seq [sampleContext "dev"])]

/-- The sample document without the two keys that the configuration types do not
declare. -/
def declaredRoot : Yaml :=
  .map [("apiVersion", .scalar .str "v1"),
        ("kind", .scalar .str "Config"),
        ("current-context", .scalar .str "old-context"),
        ("contexts", .seq [sampleContext "old-context", sampleContext "new-context"]),
        ("clusters", .seq [.map [("name", .scalar .str "c1"),
            ("cluster", .map [("server", .scalar .str "https://c1")])]]),
        ("users", .seq [.map [("name", .scalar .str "u1"),
            ("user", .map [("token", .scalar .str "t")])]])]

/-- A document that declares a context whose name is a line break followed by `a`. -/
def lineBreakRoot : Yaml :=
  .map [("apiVersion", .scalar .str "v1"),
        ("kind", .scalar .str "Config"),
        ("current-context", .scalar .str "dev"),
        ("contexts", .seq [sampleContext "dev", sampleContext "\na"])]

def lineBreakConfig : KubeConfig :=
  { ApiVersion := "v1", Kind := "Config", CurrentContext := "dev",
    Contexts := [⟨"dev", ⟨"c1", "u1", ""⟩⟩, ⟨"\na", ⟨"c1", "u1", ""⟩⟩],
    Clusters := [], Users := [], Preferences := [] }

/-- A marshal that writes a text that is not well-formed when the current context or the
name of a context begins with a line break (the block scalar written for such a string
does not read back), and the reference text otherwise. -/
def blockScalarMarshal (c : KubeConfig) : Content :=
  if (c.CurrentContext :: c.Contexts.map (fun context => context.Name)).any
      (fun s => s.data.head? == some '\n') then
    .malformed "line 3: did not find expected key"
  else plainMarshal c

/-- The world of `lineBreakRoot` in a writable file, with `blockScalarMarshal`. -/
def lineBreakWorld : World := { worldWith lineBreakRoot with marshal := blockScalarMarshal }

/-- A terminal without colours whose selection always reports an interrupt. -/
def plainTerminal : Terminal :=
  { green := fun s => s, red := fun s => s, selectRun := fun _ _ => .error "^C" }


/-! # Properties -/

/-! ### Ordering and sorting -/

theorem lexLess_asymm (a b : List Nat) (h : lexLess a b = true) : lexLess b a = false := by
  induction a generalizing b with
  | nil => cases b <;> simp_all [lexLess]
  | cons x as ih =>
    cases b with
    | nil => simp [lexLess] at h
    | cons y bs =>
      simp only [lexLess, Bool.or_eq_true, decide_eq_true_eq, Bool.and_eq_true, beq_iff_eq] at h
      simp only [lexLess, Bool.or_eq_false_iff, decide_eq_false_iff_not, Bool.and_eq_false_iff,
        beq_eq_false_iff_ne]
      rcases h with h | ⟨h1, h2⟩
      · exact ⟨by omega, Or.inl (by omega)⟩
      · exact ⟨by omega, Or.inr (ih bs h2)⟩

theorem lexLess_le_trans (a b c : List Nat) (hab : lexLess a b = true)
    (hbc : lexLess c b = false) : lexLess c a = false := by
  induction a generalizing b c with
  | nil => cases c <;> simp [lexLess]
  | cons x as ih =>
    cases b with
    | nil => simp [lexLess] at hab
    | cons y bs =>
      cases c with
      | nil => simp [lexLess] at hbc
      | cons z cs =>
        simp only [lexLess, Bool.or_eq_true, decide_eq_true_eq, Bool.and_eq_true,
          beq_iff_eq] at hab
        simp only [lexLess, Bool.or_eq_false_iff, decide_eq_false_iff_not,
          Bool.and_eq_false_iff, beq_eq_false_iff_ne] at hbc ⊢
        obtain ⟨h1, h2⟩ := hbc
        refine ⟨by omega, ?_⟩
        by_cases hzx : z = x
        · right
          rcases hab with hab | ⟨hxy, hab⟩
          · omega
          · rcases h2 with h2 | h2
            · omega
            · exact ih bs cs hab h2
        · left
          exact hzx

theorem insertString_perm (x : String) (l : List String) :
    (insertString x l).Perm (x :: l) := by
  induction l with
  | nil => exact List.Perm.refl _
  | cons y ys ih =>
    simp only [insertString]
    split
    · exact List.Perm.refl _
    · exact (List.Perm.cons y ih).trans (List.Perm.swap x y ys)

theorem sortStrings_perm (l : List String) : (sortStrings l).Perm l := by
  induction l with
  | nil => exact List.Perm.refl _
  | cons x xs ih => exact (insertString_perm x _).trans (List.Perm.cons x ih)

theorem insertString_sorted (x : String) (l : List String)
    (h : l.Pairwise (fun a b => stringLess b a = false)) :
    (insertString x l).Pairwise (fun a b => stringLess b a = false) := by
  induction l with
  | nil => simp [insertString]
  | cons y ys ih =>
    obtain ⟨hy, hys⟩ := List.pairwise_cons.mp h
    simp only [insertString]
    split
    · rename_i hxy
      refine List.pairwise_cons.mpr ⟨?_, h⟩
      intro z hz
      rcases List.mem_cons.mp hz with rfl | hz
      · exact lexLess_asymm _ _ hxy
      · exact lexLess_le_trans _ _ _ hxy (hy z hz)
    · rename_i hxy
      refine List.pairwise_cons.mpr ⟨?_, ih hys⟩
      intro z hz
      rcases List.mem_cons.mp ((insertString_perm x ys).mem_iff.mp hz) with rfl | hz
      · simpa using hxy
      · exact hy z hz

theorem sortStrings_sorted (l : List String) :
    (sortStrings l).Pairwise (fun a b => stringLess b a = false) := by
  induction l with
  | nil => exact List.Pairwise.nil
  | cons x xs ih => exact insertString_sorted x _ ih

theorem char_lt_iff (a b : Char) : a < b ↔ a.toNat < b.toNat := by
  exact Iff.rfl

theorem char_toNat_inj (a b : Char) : a.toNat = b.toNat ↔ a = b := by
  constructor
  · intro h
    apply Char.ext
    apply UInt32.ext
    exact h
  · intro h; rw [h]

theorem lexLess_chars (a b : List Char) :
    lexLess (a.map Char.toNat) (b.map Char.toNat) = true ↔ List.Lex (· < ·) a b := by
  induction a generalizing b with
  | nil =>
    cases b with
    | nil => simp [lexLess]
    | cons y bs => simpa [lexLess] using List.Lex.nil
  | cons x as ih =>
    cases b with
    | nil => simp [lexLess]
    | cons y bs =>
      simp only [List.map_cons, lexLess, Bool.or_eq_true, decide_eq_true_eq, Bool.and_eq_true,
        beq_iff_eq, ih, char_toNat_inj, ← char_lt_iff]
      constructor
      · rintro (h | ⟨rfl, h⟩)
        · exact List.Lex.rel h
        · exact List.Lex.cons h
      · intro h
        cases h with
        | rel h => exact Or.inl h
        | cons h => exact Or.inr ⟨rfl, h⟩

theorem stringLess_iff (a b : String) : stringLess a b = true ↔ a < b := by
  unfold stringLess runes
  rw [lexLess_chars, String.lt_iff_toList_lt]
  exact Iff.rfl

theorem stringLess_false_iff (a b : String) : stringLess b a = false ↔ a ≤ b := by
  rw [← not_lt, ← stringLess_iff]
  simp

/-! ### Case folding -/

theorem beq_decide_of_iff (a b : Nat) (P : Prop) [Decidable P] (h : a = b ↔ P) :
    (a == b) = decide P := by
  rw [Bool.eq_iff_iff]
  simp only [beq_iff_eq, decide_eq_true_eq]
  exact h

theorem caseFold_high (c : Nat) (hc : 128 ≤ c) :
    caseFold c = if c = 0x212A then 107 else if c = 0x17F then 115 else c := by
  unfold caseFold
  rw [if_neg (by omega)]

theorem foldLoop_stop (orbit : Nat → Nat) (n sr tr r : Nat) (h : ¬ (r ≠ sr ∧ r < tr)) :
    foldLoop orbit n sr tr r = r := by
  cases n with
  | zero => rfl
  | succ n => simp only [foldLoop, if_neg h]

theorem foldLoop_step (orbit : Nat → Nat) (n sr tr r : Nat) (h : r ≠ sr ∧ r < tr) :
    foldLoop orbit (n + 1) sr tr r = foldLoop orbit n sr tr (SimpleFold orbit r) := by
  simp only [foldLoop, if_pos h]

theorem foldLoop_lower (orbit : Nat → Nat) (n e c : Nat)
    (he : (97 ≤ e ∧ e ≤ 122) ∨ e = 45) (hc : 128 ≤ c) :
    (foldLoop orbit (n + 2) e c (SimpleFold orbit e) == c) = decide (caseFold c = e) := by
  have he128 : e < 128 := by omega
  rw [caseFold_high c hc]
  by_cases h45 : e = 45
  · subst h45
    have h1 : SimpleFold orbit 45 = 45 := by simp [SimpleFold, asciiFold]
    rw [h1, foldLoop_stop _ _ _ _ _ (by simp)]
    apply beq_decide_of_iff
    split_ifs <;> omega
  by_cases h107 : e = 107
  · subst h107
    have h1 : SimpleFold orbit 107 = 0x212A := by simp [SimpleFold, asciiFold]
    have h2 : SimpleFold orbit 0x212A = 75 := by simp [SimpleFold]
    have h3 : SimpleFold orbit 75 = 107 := by simp [SimpleFold, asciiFold]
    rw [h1]
    by_cases hlt : 0x212A < c
    · rw [foldLoop_step _ _ _ _ _ ⟨by omega, hlt⟩, h2,
        foldLoop_step _ _ _ _ _ ⟨by omega, by omega⟩, h3, foldLoop_stop _ _ _ _ _ (by simp)]
      have h4 : ¬ (c = 0x212A) := by omega
      have h5 : ¬ (107 = c) := by omega
      rw [if_neg h4]
      apply beq_decide_of_iff
      split_ifs <;> omega
    · rw [foldLoop_stop _ _ _ _ _ (by omega)]
      by_cases h4 : c = 0x212A
      · simp [h4]
      · have h5 : ¬ (0x212A = c) := fun h => h4 h.symm
        rw [if_neg h4]
        apply beq_decide_of_iff
        split_ifs <;> omega
  by_cases h115 : e = 115
  · subst h115
    have h1 : SimpleFold orbit 115 = 0x17F := by simp [SimpleFold, asciiFold]
    have h2 : SimpleFold orbit 0x17F = 83 := by simp [SimpleFold]
    have h3 : SimpleFold orbit 83 = 115 := by simp [SimpleFold, asciiFold]
    rw [h1]
    by_cases hlt : 0x17F < c
    · rw [foldLoop_step _ _ _ _ _ ⟨by omega, hlt⟩, h2,
        foldLoop_step _ _ _ _ _ ⟨by omega, by omega⟩, h3, foldLoop_stop _ _ _ _ _ (by simp)]
      have h5 : ¬ (115 = c) := by omega
      apply beq_decide_of_iff
      split_ifs <;> omega
    · rw [foldLoop_stop _ _ _ _ _ (by omega)]
      by_cases h4 : c = 0x17F
      · simp [h4]
      · have h5 : ¬ (0x17F = c) := fun h => h4 h.symm
        apply beq_decide_of_iff
        split_ifs <;> omega
  · have hl : 97 ≤ e ∧ e ≤ 122 := by omega
    have h1 : SimpleFold orbit e = e - 32 := by
      unfold SimpleFold asciiFold
      rw [if_pos he128, if_neg (by omega), if_neg h107, if_neg h115, if_pos hl]
    have h3 : SimpleFold orbit (e - 32) = e := by
      unfold SimpleFold asciiFold
      rw [if_pos (by omega), if_pos (by omega)]
      omega
    rw [h1, foldLoop_step _ _ _ _ _ ⟨by omega, by omega⟩, h3,
      foldLoop_stop _ _ _ _ _ (by simp)]
    have h5 : ¬ (e = c) := by omega
    apply beq_decide_of_iff
    split_ifs <;> omega

theorem equalFoldRune_lower (orbit : Nat → Nat) (c e : Nat)
    (he : (97 ≤ e ∧ e ≤ 122) ∨ e = 45) :
    equalFoldRune orbit c e = decide (caseFold c = e) := by
  have hfix : caseFold e = e := by
    unfold caseFold
    rw [if_neg (by omega), if_neg (by omega), if_neg (by omega)]
  unfold equalFoldRune
  by_cases hce : e = c
  · subst hce
    simp [hfix]
  rw [if_neg hce]
  by_cases hc : 128 ≤ c
  · have hlt : ¬ (e < c) → False := by omega
    have h1 : (if e < c then e else c) = e := by rw [if_pos (by omega)]
    have h2 : (if e < c then c else e) = c := by rw [if_pos (by omega)]
    simp only [h1, h2]
    rw [if_neg (by omega), show (0x110000 : Nat) = 1114110 + 2 from rfl]
    exact foldLoop_lower orbit _ e c he hc
  · have hcf : caseFold c = if 65 ≤ c ∧ c ≤ 90 then c + 32 else c := by
      unfold caseFold
      split_ifs <;> omega
    rw [hcf]
    by_cases hlt : e < c
    · simp only [if_pos hlt]
      rw [if_pos (by omega)]
      rw [Bool.eq_iff_iff]
      simp only [decide_eq_true_eq]
      split_ifs <;> omega
    · simp only [if_neg hlt]
      rw [if_pos (by omega)]
      rw [Bool.eq_iff_iff]
      simp only [decide_eq_true_eq]
      split_ifs <;> omega

theorem equalFoldRunes_lower (orbit : Nat → Nat) (s t : List Nat)
    (ht : ∀ e ∈ t, (97 ≤ e ∧ e ≤ 122) ∨ e = 45) :
    equalFoldRunes orbit s t = decide (s.map caseFold = t) := by
  induction s generalizing t with
  | nil => cases t <;> simp [equalFoldRunes]
  | cons c s ih =>
    cases t with
    | nil => simp [equalFoldRunes]
    | cons e t =>
      have h1 := equalFoldRune_lower orbit c e (ht e (List.mem_cons_self _ _))
      have h2 := ih t (fun x hx => ht x (List.mem_cons_of_mem _ hx))
      simp [equalFoldRunes, h1, h2]

theorem EqualFold_lower (orbit : Nat → Nat) (arg e : String)
    (he : ∀ r ∈ runes e, (97 ≤ r ∧ r ≤ 122) ∨ r = 45) :
    EqualFold orbit arg e = decide ((runes arg).map caseFold = runes e) :=
  equalFoldRunes_lower orbit (runes arg) (runes e) he

/-! ### Loading and switching -/

theorem loadKubeConfig_ok (w : World) (D : KubeConfig)
    (h : loadKubeConfig w = .ret (.ok D)) :
    ∃ p f, GetKubeConfigPath w = .ret p ∧ w.fs p = some f ∧ f.readErr = none ∧
      yamlUnmarshal f.content = .ok D := by
  unfold loadKubeConfig at h
  split at h
  · cases h
  · rename_i p hp
    split at h
    · cases h
    · rename_i f hf
      split at h
      · cases h
      · rename_i hr
        split at h
        · cases h
        · rename_i c hc
          cases h
          exact ⟨p, f, hp, hf, hr, hc⟩

theorem loadKubeConfig_of (w : World) (D : KubeConfig) (p : String) (f : File)
    (hp : GetKubeConfigPath w = .ret p) (hf : w.fs p = some f) (hr : f.readErr = none)
    (hu : yamlUnmarshal f.content = .ok D) : loadKubeConfig w = .ret (.ok D) := by
  simp only [loadKubeConfig, hp, hf, hr, hu]

theorem any_name_iff (cs : List Context) (N : String) :
    cs.any (fun context => context.Name == N) = true ↔ ∃ c ∈ cs, c.Name = N := by
  simp [List.any_eq_true]

theorem GetKubeConfigPath_put (w : World) (p : String) (f : File) :
    GetKubeConfigPath (w.put p f) = GetKubeConfigPath w := rfl

theorem fs_put_self (w : World) (p : String) (f : File) : (w.put p f).fs p = some f := by
  simp [World.put]

theorem configRoot_put (w : World) (p : String) (f : File) (root : Yaml)
    (hp : GetKubeConfigPath w = .ret p) (hc : f.content = .doc root) :
    configRoot (w.put p f) = some root := by
  unfold configRoot
  rw [GetKubeConfigPath_put, hp]
  simp only [fs_put_self]
  cases f
  simp only at hc
  subst hc
  rfl

theorem configContent_put (w : World) (p : String) (f : File)
    (hp : GetKubeConfigPath w = .ret p) :
    configContent (w.put p f) = some f.content := by
  unfold configContent
  rw [GetKubeConfigPath_put, hp]
  simp only [fs_put_self, Option.map_some']

theorem configWritable_put (w : World) (p : String) (f : File)
    (hp : GetKubeConfigPath w = .ret p) (hw : f.writeFault = none) :
    configWritable (w.put p f) = true := by
  unfold configWritable
  rw [GetKubeConfigPath_put, hp]
  simp only [fs_put_self, hw]
  rfl

theorem loadKubeConfig_put (w : World) (p : String) (f : File) (D : KubeConfig)
    (hp : GetKubeConfigPath w = .ret p) (hr : f.readErr = none)
    (hu : yamlUnmarshal f.content = .ok D) :
    loadKubeConfig (w.put p f) = .ret (.ok D) := by
  exact loadKubeConfig_of (w.put p f) D p f
    (by rw [GetKubeConfigPath_put]; exact hp) (fs_put_self w p f) hr hu

theorem SetCurrentContext_found (w : World) (D : KubeConfig) (N : String)
    (p : String) (f : File)
    (hload : loadKubeConfig w = .ret (.ok D))
    (hp : GetKubeConfigPath w = .ret p) (hf : w.fs p = some f)
    (hN : D.Contexts.any (fun context => context.Name == N) = true)
    (hw : f.writeFault = none) :
    SetCurrentContext w N
      = .ret (none, w.put p { f with
          content := w.marshal { D with CurrentContext := N } }) := by
  simp only [SetCurrentContext, hload, hN, yamlMarshal, hp, writeFile, hf, hw]
  rfl

theorem SetCurrentContext_openFault (w : World) (D : KubeConfig) (N : String)
    (p : String) (f : File) (msg : String)
    (hload : loadKubeConfig w = .ret (.ok D))
    (hp : GetKubeConfigPath w = .ret p) (hf : w.fs p = some f)
    (hN : D.Contexts.any (fun context => context.Name == N) = true)
    (hw : f.writeFault = some ⟨msg, none⟩) :
    SetCurrentContext w N = .ret (some ("failed to write kubeconfig: " ++ msg), w) := by
  simp only [SetCurrentContext, hload, hN, yamlMarshal, hp, writeFile, hf, hw]
  rfl

theorem SetCurrentContext_cutFault (w : World) (D : KubeConfig) (N : String)
    (p : String) (f : File) (msg : String) (c : Content)
    (hload : loadKubeConfig w = .ret (.ok D))
    (hp : GetKubeConfigPath w = .ret p) (hf : w.fs p = some f)
    (hN : D.Contexts.any (fun context => context.Name == N) = true)
    (hw : f.writeFault = some ⟨msg, some c⟩) :
    SetCurrentContext w N
      = .ret (some ("failed to write kubeconfig: " ++ msg),
          w.put p { f with content := c }) := by
  simp only [SetCurrentContext, hload, hN, yamlMarshal, hp, writeFile, hf, hw]
  rfl

theorem SetCurrentContext_missing (w : World) (D : KubeConfig) (N : String)
    (hload : loadKubeConfig w = .ret (.ok D))
    (hN : D.Contexts.any (fun context => context.Name == N) = false) :
    SetCurrentContext w N = .ret (some ("context \x27" ++ N ++ "\x27 not found"), w) := by
  simp only [SetCurrentContext, hload, hN]
  rfl

theorem configWritable_of (w : World) (p : String) (f : File)
    (hp : GetKubeConfigPath w = .ret p) (hf : w.fs p = some f)
    (hw : configWritable w = true) : f.writeFault = none := by
  simp only [configWritable, hp, hf] at hw
  simpa using hw

theorem writeError_ne_notFound (e N : String) :
    ("failed to write kubeconfig: " ++ e) ≠ notFoundMessage N := by
  intro h
  have h1 := congrArg String.data h
  simp only [notFoundMessage, String.data_append] at h1
  have h2 := congrArg List.head? h1
  simp at h2

/-- When the search finds the name, the error returned, if any, is the one of the
write. -/
theorem SetCurrentContext_found_cases (w : World) (D : KubeConfig) (N : String)
    (hload : loadKubeConfig w = .ret (.ok D))
    (hN : D.Contexts.any (fun context => context.Name == N) = true) :
    (∃ w1, SetCurrentContext w N = .ret (none, w1))
      ∨ (∃ msg w1, SetCurrentContext w N
          = .ret (some ("failed to write kubeconfig: " ++ msg), w1)) := by
  obtain ⟨p, f, hp, hf, _, _⟩ := loadKubeConfig_ok w D hload
  cases hw : f.writeFault with
  | none => exact Or.inl ⟨_, SetCurrentContext_found w D N p f hload hp hf hN hw⟩
  | some fault =>
    obtain ⟨msg, left⟩ := fault
    cases left with
    | none => exact Or.inr ⟨msg, _, SetCurrentContext_openFault w D N p f msg hload hp hf hN hw⟩
    | some c =>
      exact Or.inr ⟨msg, _, SetCurrentContext_cutFault w D N p f msg c hload hp hf hN hw⟩

/-- What a switch on a writable file leaves: the file rewritten with the text that
`yaml.Marshal` writes for the loaded configuration with the requested current context;
that configuration is read back when the text reads back. -/
theorem SetCurrentContext_switch (w : World) (D : KubeConfig) (N : String)
    (hload : loadKubeConfig w = .ret (.ok D))
    (hN : ∃ c ∈ D.Contexts, c.Name = N) (hw : configWritable w = true) :
    ∃ w1, SetCurrentContext w N = .ret (none, w1)
      ∧ configContent w1 = some (w.marshal { D with CurrentContext := N })
      ∧ w1.marshal = w.marshal
      ∧ configWritable w1 = true
      ∧ (readsBack w { D with CurrentContext := N } →
          loadKubeConfig w1 = .ret (.ok { D with CurrentContext := N })) := by
  obtain ⟨p, f, hp, hf, hr, hu⟩ := loadKubeConfig_ok w D hload
  have hwe := configWritable_of w p f hp hf hw
  have hany := (any_name_iff D.Contexts N).mpr hN
  refine ⟨_, SetCurrentContext_found w D N p f hload hp hf hany hwe, ?_, rfl, ?_, ?_⟩
  · exact configContent_put w p _ hp
  · exact configWritable_put w p _ hp hwe
  · intro hrb
    exact loadKubeConfig_put w p _ _ hp hr hrb

theorem GetCurrentContext_of_load (w : World) (D : KubeConfig)
    (h : loadKubeConfig w = .ret (.ok D)) : GetCurrentContext w = .ret D.CurrentContext := by
  simp only [GetCurrentContext, h]

theorem put_put (w : World) (p : String) (f g : File) : (w.put p f).put p g = w.put p g := by
  unfold World.put
  congr 1
  funext q
  by_cases h : q = p <;> simp [h]

theorem not_any_name (cs : List Context) (N : String) (h : ∀ c ∈ cs, c.Name ≠ N) :
    cs.any (fun context => context.Name == N) = false := by
  rw [Bool.eq_false_iff]
  intro hany
  obtain ⟨c, hc, hn⟩ := (any_name_iff cs N).mp hany
  exact h c hc hn

theorem occurs_quoted (pre N post : String) : Occurs N (pre ++ N ++ post) :=
  ⟨pre, post, rfl⟩

/-! ## The claims -/

/-- C1, as stated, fails: the file of `readOnlyWorld` holds the sample configuration, which
declares `new-context`, but cannot be written; `SetCurrentContext "new-context"` returns
the write error and the current context stays `old-context`. -/
theorem SetCurrentContext_readOnly :
    loadKubeConfig readOnlyWorld = .ret (.ok sampleConfig)
      ∧ (∃ c ∈ sampleConfig.Contexts, c.Name = "new-context")
      ∧ SetCurrentContext readOnlyWorld "new-context"
          = .ret (some "failed to write kubeconfig: open /tmp/kube/config: permission denied",
              readOnlyWorld)
      ∧ GetCurrentContext readOnlyWorld = .ret "old-context" :=
  ⟨rfl, ⟨⟨"new-context", ⟨"c1", "u1", ""⟩⟩, by simp [sampleConfig], rfl⟩, rfl, rfl⟩

/-- C1, amended: when the file holds a configuration `D`, the name `N` is the name of an
entry of `D.Contexts` and the file can be written, `SetCurrentContext N` returns no
error and leaves in the file the text `yaml.Marshal` writes for `D` with the current
context `N`; when that text reads back as that configuration, `GetCurrentContext` on the
resulting file returns `N`. -/
theorem SetCurrentContext_then_GetCurrentContext (w : World) (D : KubeConfig) (N : String)
    (hload : loadKubeConfig w = .ret (.ok D))
    (hN : ∃ c ∈ D.Contexts, c.Name = N) (hw : configWritable w = true) :
    ∃ w1, SetCurrentContext w N = .ret (none, w1)
      ∧ configContent w1 = some (w.marshal { D with CurrentContext := N })
      ∧ (readsBack w { D with CurrentContext := N } → GetCurrentContext w1 = .ret N) := by
  obtain ⟨w1, hset, hcontent, _, _, hload1⟩ := SetCurrentContext_switch w D N hload hN hw
  exact ⟨w1, hset, hcontent, fun hrb => GetCurrentContext_of_load w1 _ (hload1 hrb)⟩

theorem SetCurrentContext_then_GetCurrentContext_witness :
    loadKubeConfig sampleWorld = .ret (.ok sampleConfig)
      ∧ (∃ c ∈ sampleConfig.Contexts, c.Name = "new-context")
      ∧ configWritable sampleWorld = true
      ∧ readsBack sampleWorld { sampleConfig with CurrentContext := "new-context" }
      ∧ ∃ w1, SetCurrentContext sampleWorld "new-context" = .ret (none, w1)
          ∧ GetCurrentContext w1 = .ret "new-context" := by
  have h := SetCurrentContext_then_GetCurrentContext sampleWorld sampleConfig "new-context"
    rfl ⟨⟨"new-context", ⟨"c1", "u1", ""⟩⟩, by simp [sampleConfig], rfl⟩ rfl
  obtain ⟨w1, h1, _, h3⟩ := h
  exact ⟨rfl, ⟨⟨"new-context", ⟨"c1", "u1", ""⟩⟩, by simp [sampleConfig], rfl⟩, rfl, rfl,
    w1, h1, h3 rfl⟩

/-- C2: when the file holds a configuration `D` and no entry of `D.Contexts` is named
`N`, `SetCurrentContext N` returns an error whose message contains `N`, leaves the world
(so the file) as it was, and a following load returns the same document `D` with the same
current context. -/
theorem SetCurrentContext_unknown_name (w : World) (D : KubeConfig) (N : String)
    (hload : loadKubeConfig w = .ret (.ok D)) (hN : ∀ c ∈ D.Contexts, c.Name ≠ N) :
    ∃ msg w1, SetCurrentContext w N = .ret (some msg, w1) ∧ Occurs N msg ∧ w1 = w
      ∧ configRoot w1 = configRoot w
      ∧ loadKubeConfig w1 = .ret (.ok D)
      ∧ GetCurrentContext w1 = .ret D.CurrentContext :=
  ⟨_, w, SetCurrentContext_missing w D N hload (not_any_name _ _ hN),
    occurs_quoted _ N _, rfl, rfl, hload, GetCurrentContext_of_load w D hload⟩

theorem SetCurrentContext_unknown_name_witness :
    loadKubeConfig sampleWorld = .ret (.ok sampleConfig)
      ∧ (∀ c ∈ sampleConfig.Contexts, c.Name ≠ "non-existent-context")
      ∧ ∃ msg w1, SetCurrentContext sampleWorld "non-existent-context" = .ret (some msg, w1)
          ∧ Occurs "non-existent-context" msg ∧ w1 = sampleWorld
          ∧ configRoot w1 = configRoot sampleWorld
          ∧ loadKubeConfig w1 = .ret (.ok sampleConfig)
          ∧ GetCurrentContext w1 = .ret sampleConfig.CurrentContext :=
  ⟨rfl, by simp [sampleConfig],
    SetCurrentContext_unknown_name sampleWorld sampleConfig "non-existent-context" rfl
      (by simp [sampleConfig])⟩

/-- C3: when the file at the configuration path holds `D` and `N` names an entry of
`D.Contexts`, what `SetCurrentContext N` serialises is the configuration `D1` whose
current context is `N` and whose `ApiVersion`, `Kind`, `Preferences`, `Contexts`,
`Clusters` and `Users` are those of `D`, lists in the same order: when the write
succeeds the call returns no error and the file holds exactly the text `yaml.Marshal`
writes for `D1` (and loads to `D1` when that text reads back); when the file cannot be
opened the write error is returned and the world is as it was; when the write fails
after the file was opened the write error is returned and the file holds what the failed
write left. -/
theorem SetCurrentContext_frame (w : World) (D : KubeConfig) (N : String)
    (p : String) (f : File)
    (hload : loadKubeConfig w = .ret (.ok D)) (hN : ∃ c ∈ D.Contexts, c.Name = N)
    (hp : GetKubeConfigPath w = .ret p) (hf : w.fs p = some f) :
    ∃ D1, D1.CurrentContext = N
      ∧ D1.ApiVersion = D.ApiVersion ∧ D1.Kind = D.Kind ∧ D1.Preferences = D.Preferences
      ∧ D1.Contexts = D.Contexts ∧ D1.Clusters = D.Clusters ∧ D1.Users = D.Users
      ∧ (f.writeFault = none →
          SetCurrentContext w N = .ret (none, w.put p { f with content := w.marshal D1 })
          ∧ configContent (w.put p { f with content := w.marshal D1 })
              = some (w.marshal D1)
          ∧ (readsBack w D1 →
              loadKubeConfig (w.put p { f with content := w.marshal D1 })
                = .ret (.ok D1)))
      ∧ (∀ msg, f.writeFault = some ⟨msg, none⟩ →
          SetCurrentContext w N = .ret (some ("failed to write kubeconfig: " ++ msg), w))
      ∧ (∀ msg c, f.writeFault = some ⟨msg, some c⟩ →
          SetCurrentContext w N
            = .ret (some ("failed to write kubeconfig: " ++ msg),
                w.put p { f with content := c })) := by
  have hany := (any_name_iff D.Contexts N).mpr hN
  have hr : f.readErr = none := by
    obtain ⟨p1, f1, hp1, hf1, hr1, _⟩ := loadKubeConfig_ok w D hload
    rw [hp] at hp1
    cases hp1
    rw [hf] at hf1
    cases hf1
    exact hr1
  refine ⟨{ D with CurrentContext := N }, rfl, rfl, rfl, rfl, rfl, rfl, rfl, ?_, ?_, ?_⟩
  · intro hw
    exact ⟨SetCurrentContext_found w D N p f hload hp hf hany hw,
      configContent_put w p _ hp,
      fun hrb => loadKubeConfig_put w p _ _ hp hr hrb⟩
  · intro msg hw
    exact SetCurrentContext_openFault w D N p f msg hload hp hf hany hw
  · intro msg c hw
    exact SetCurrentContext_cutFault w D N p f msg c hload hp hf hany hw

theorem SetCurrentContext_frame_witness :
    loadKubeConfig sampleWorld = .ret (.ok sampleConfig)
      ∧ (∃ c ∈ sampleConfig.Contexts, c.Name = "new-context")
      ∧ GetKubeConfigPath sampleWorld = .ret "/tmp/kube/config"
      ∧ sampleWorld.fs "/tmp/kube/config" = some ⟨.doc sampleRoot, none, none⟩
      ∧ ∃ D1, D1.CurrentContext = "new-context"
          ∧ D1.ApiVersion = sampleConfig.ApiVersion ∧ D1.Kind = sampleConfig.Kind
          ∧ D1.Preferences = sampleConfig.Preferences
          ∧ D1.Contexts = sampleConfig.Contexts ∧ D1.Clusters = sampleConfig.Clusters
          ∧ D1.Users = sampleConfig.Users
          ∧ SetCurrentContext sampleWorld "new-context"
              = .ret (none, sampleWorld.put "/tmp/kube/config"
                  ⟨sampleWorld.marshal D1, none, none⟩)
          ∧ configContent (sampleWorld.put "/tmp/kube/config"
                ⟨sampleWorld.marshal D1, none, none⟩) = some (sampleWorld.marshal D1) := by
  have h := SetCurrentContext_frame sampleWorld sampleConfig "new-context"
    "/tmp/kube/config" ⟨.doc sampleRoot, none, none⟩ rfl
    ⟨⟨"new-context", ⟨"c1", "u1", ""⟩⟩, by simp [sampleConfig], rfl⟩ rfl rfl
  obtain ⟨D1, h1, h2, h3, h4, h5, h6, h7, hwrite, _, _⟩ := h
  have h8 := hwrite rfl
  exact ⟨rfl, ⟨⟨"new-context", ⟨"c1", "u1", ""⟩⟩, by simp [sampleConfig], rfl⟩, rfl, rfl,
    D1, h1, h2, h3, h4, h5, h6, h7, h8.1, h8.2.1⟩

/-- C4: when the file holds `D`, `GetContexts` returns a permutation of the names of
`D.Contexts` (same length, same multiset) in which every element is at most its
successor, indeed at most every later element, in the lexicographic order of strings;
for contexts named b, a, c it returns a, b, c. -/
theorem GetContexts_sorted (w : World) (D : KubeConfig)
    (hload : loadKubeConfig w = .ret (.ok D)) :
    ∃ names, GetContexts w = .ret names
      ∧ names.Perm (D.Contexts.map (fun c => c.Name))
      ∧ names.length = D.Contexts.length
      ∧ names.Chain' (fun a b => a ≤ b)
      ∧ names.Pairwise (fun a b => a ≤ b)
      ∧ (D.Contexts.map (fun c => c.Name) = ["b", "a", "c"] → names = ["a", "b", "c"]) := by
  have hp := sortStrings_perm (D.Contexts.map (fun c => c.Name))
  have hs : (sortStrings (D.Contexts.map (fun c => c.Name))).Pairwise (fun a b => a ≤ b) :=
    (sortStrings_sorted _).imp (fun h => (stringLess_false_iff _ _).mp h)
  refine ⟨sortStrings (D.Contexts.map (fun c => c.Name)), ?_, hp, ?_, ?_, hs, ?_⟩
  · simp only [GetContexts, hload]
  · simpa using hp.length_eq
  · exact List.Pairwise.chain' hs
  · intro h
    rw [h]
    rfl

theorem GetContexts_sorted_witness :
    loadKubeConfig (worldWith bacRoot) = .ret (.ok bacConfig)
      ∧ ∃ names, GetContexts (worldWith bacRoot) = .ret names
          ∧ names.Perm (bacConfig.Contexts.map (fun c => c.Name))
          ∧ names.length = bacConfig.Contexts.length
          ∧ names.Chain' (fun a b => a ≤ b)
          ∧ names.Pairwise (fun a b => a ≤ b)
          ∧ (bacConfig.Contexts.map (fun c => c.Name) = ["b", "a", "c"]
              → names = ["a", "b", "c"]) :=
  ⟨rfl, GetContexts_sorted (worldWith bacRoot) bacConfig rfl⟩

/-- C5, as stated, fails: the sample document carries a top-level `extensions` key and a
`proxy-url` key inside its cluster; switching to the context that is already current
succeeds, and the document written back has neither key. -/
theorem roundTrip_drops_undeclared_keys :
    configRoot sampleWorld = some sampleRoot
      ∧ sampleRoot.entries.lookup "extensions"
          = some (.seq [.map [("name", .scalar .str "note")]])
      ∧ sampleRoot.entries.lookup "clusters"
          = some (.seq [.map [("name", .scalar .str "c1"),
              ("cluster", .map [("server", .scalar .str "https://c1"),
                                ("proxy-url", .scalar .str "http://proxy")])]])
      ∧ GetCurrentContext sampleWorld = .ret "old-context"
      ∧ ∃ w1 root1, SetCurrentContext sampleWorld "old-context" = .ret (none, w1)
          ∧ configRoot w1 = some root1
          ∧ root1.entries.lookup "extensions" = none
          ∧ root1.entries.lookup "clusters"
              = some (.seq [.map [("name", .scalar .str "c1"),
                  ("cluster", .map [("server", .scalar .str "https://c1")])]]) :=
  ⟨rfl, rfl, rfl, rfl, _, _, rfl, rfl, rfl, rfl⟩

/-- C5, amended: when the file loads to `D`, the current context of `D` is declared and
the file can be written, switching to the current context replaces the content of the
file by the text `yaml.Marshal` writes for `D`, and the file loads to `D` again when that
text reads back as `D`. What is saved depends on `D` alone: a second file that loads to
the same `D`, whatever keys that the configuration types do not declare it carries, is
rewritten to the same content. -/
theorem roundTrip_declared_fields (w : World) (D : KubeConfig)
    (hload : loadKubeConfig w = .ret (.ok D))
    (hN : ∃ c ∈ D.Contexts, c.Name = D.CurrentContext) (hw : configWritable w = true) :
    ∃ w1, SetCurrentContext w D.CurrentContext = .ret (none, w1)
      ∧ configContent w1 = some (w.marshal D)
      ∧ (readsBack w D → loadKubeConfig w1 = .ret (.ok D))
      ∧ (∀ w2, w2.marshal = w.marshal → loadKubeConfig w2 = .ret (.ok D) →
          configWritable w2 = true →
          ∃ w3, SetCurrentContext w2 D.CurrentContext = .ret (none, w3)
            ∧ configContent w3 = configContent w1) := by
  obtain ⟨w1, hset, hcontent, _, _, hload1⟩ :=
    SetCurrentContext_switch w D D.CurrentContext hload hN hw
  refine ⟨w1, hset, hcontent, hload1, ?_⟩
  intro w2 hm hload2 hw2
  obtain ⟨w3, hset3, hcontent3, _, _, _⟩ :=
    SetCurrentContext_switch w2 D D.CurrentContext hload2 hN hw2
  refine ⟨w3, hset3, ?_⟩
  rw [hcontent3, hcontent, hm]

theorem roundTrip_declared_fields_witness :
    loadKubeConfig sampleWorld = .ret (.ok sampleConfig)
      ∧ (∃ c ∈ sampleConfig.Contexts, c.Name = sampleConfig.CurrentContext)
      ∧ configWritable sampleWorld = true
      ∧ readsBack sampleWorld sampleConfig
      ∧ loadKubeConfig (worldWith declaredRoot) = .ret (.ok sampleConfig)
      ∧ ∃ w1, SetCurrentContext sampleWorld sampleConfig.CurrentContext = .ret (none, w1)
          ∧ configContent w1 = some (sampleWorld.marshal sampleConfig)
          ∧ loadKubeConfig w1 = .ret (.ok sampleConfig)
          ∧ ∃ w3, SetCurrentContext (worldWith declaredRoot) sampleConfig.CurrentContext
                = .ret (none, w3)
              ∧ configContent w3 = configContent w1 := by
  have h := roundTrip_declared_fields sampleWorld sampleConfig rfl
    ⟨⟨"old-context", ⟨"c1", "u1", ""⟩⟩, by simp [sampleConfig], rfl⟩ rfl
  obtain ⟨w1, h1, h2, h3, h4⟩ := h
  exact ⟨rfl, ⟨⟨"old-context", ⟨"c1", "u1", ""⟩⟩, by simp [sampleConfig], rfl⟩, rfl, rfl, rfl,
    w1, h1, h2, h3 rfl, h4 (worldWith declaredRoot) rfl rfl rfl⟩

/-- C6, as stated, fails: the document whose current context is `ghost` declares no
context of that name, and `SetCurrentContext "ghost"` returns the not-found error; and
on the file that cannot be written, switching to the current context `old-context`
returns the write error. -/
theorem SetCurrentContext_dangling_current :
    loadKubeConfig (worldWith danglingRoot) = .ret (.ok danglingConfig)
      ∧ danglingConfig.CurrentContext = "ghost"
      ∧ SetCurrentContext (worldWith danglingRoot) "ghost"
          = .ret (some "context \x27ghost\x27 not found", worldWith danglingRoot)
      ∧ GetCurrentContext readOnlyWorld = .ret "old-context"
      ∧ SetCurrentContext readOnlyWorld "old-context"
          = .ret (some "failed to write kubeconfig: open /tmp/kube/config: permission denied",
              readOnlyWorld) :=
  ⟨rfl, rfl, rfl, rfl, rfl⟩

/-- C6, amended: when the file loads to `D`, the current context of `D` names an entry
of `D.Contexts`, the file can be written and the text `yaml.Marshal` writes for `D` reads
back as `D`, switching to the current context succeeds and the file loads to `D` as
before; switching once more succeeds and leaves the world of the first switch unchanged,
so twice gives what once gives. -/
theorem SetCurrentContext_idempotent (w : World) (D : KubeConfig)
    (hload : loadKubeConfig w = .ret (.ok D))
    (hN : ∃ c ∈ D.Contexts, c.Name = D.CurrentContext) (hw : configWritable w = true)
    (hrb : readsBack w D) :
    ∃ w1, SetCurrentContext w D.CurrentContext = .ret (none, w1)
      ∧ loadKubeConfig w1 = .ret (.ok D)
      ∧ SetCurrentContext w1 D.CurrentContext = .ret (none, w1) := by
  obtain ⟨p, f, hp, hf, hr, hu⟩ := loadKubeConfig_ok w D hload
  have hwe := configWritable_of w p f hp hf hw
  have hany := (any_name_iff D.Contexts D.CurrentContext).mpr hN
  have h1 := SetCurrentContext_found w D D.CurrentContext p f hload hp hf hany hwe
  have hload1 : loadKubeConfig (w.put p { f with content := w.marshal D })
      = .ret (.ok D) :=
    loadKubeConfig_put w p _ _ hp hr hrb
  refine ⟨_, h1, hload1, ?_⟩
  have h2 := SetCurrentContext_found _ D D.CurrentContext p
    { f with content := w.marshal D } hload1
    (by rw [GetKubeConfigPath_put]; exact hp) (fs_put_self w p _) hany hwe
  rw [put_put] at h2
  exact h2

theorem SetCurrentContext_idempotent_witness :
    loadKubeConfig sampleWorld = .ret (.ok sampleConfig)
      ∧ (∃ c ∈ sampleConfig.Contexts, c.Name = sampleConfig.CurrentContext)
      ∧ configWritable sampleWorld = true
      ∧ readsBack sampleWorld sampleConfig
      ∧ ∃ w1, SetCurrentContext sampleWorld sampleConfig.CurrentContext = .ret (none, w1)
          ∧ loadKubeConfig w1 = .ret (.ok sampleConfig)
          ∧ SetCurrentContext w1 sampleConfig.CurrentContext = .ret (none, w1) :=
  ⟨rfl, ⟨⟨"old-context", ⟨"c1", "u1", ""⟩⟩, by simp [sampleConfig], rfl⟩, rfl, rfl,
    SetCurrentContext_idempotent sampleWorld sampleConfig rfl
      ⟨⟨"old-context", ⟨"c1", "u1", ""⟩⟩, by simp [sampleConfig], rfl⟩ rfl rfl⟩

/-- C7, as stated, fails in its last part: the document of `lineBreakWorld` declares a
context whose name is a line break followed by `a`; the file loads and can be written,
`SetCurrentContext` with that name returns no error, and the file it leaves does not
parse, so that no current context can be read from it. -/
theorem SetCurrentContext_unreadable_after_switch :
    loadKubeConfig lineBreakWorld = .ret (.ok lineBreakConfig)
      ∧ configWritable lineBreakWorld = true
      ∧ (∃ c ∈ lineBreakConfig.Contexts, c.Name = "\na")
      ∧ ∃ w1, SetCurrentContext lineBreakWorld "\na" = .ret (none, w1)
          ∧ loadKubeConfig w1
              = .ret (.error
                  "failed to parse kubeconfig file: yaml: line 3: did not find expected key")
          ∧ ∃ msg, GetCurrentContext w1 = .fatal msg :=
  ⟨rfl, rfl, ⟨⟨"\na", ⟨"c1", "u1", ""⟩⟩, by simp [lineBreakConfig], rfl⟩,
    _, rfl, rfl, _, rfl⟩

/-- C7, amended: when the file loads to `D` and can be written, `SetCurrentContext N`
returns no error exactly when some entry of `D.Contexts` has the name `N`; a name equal
to no declared name is rejected with the world unchanged, also when it agrees with a
declared name up to letter case; after a switch that returned no error the file holds
the text `yaml.Marshal` writes for `D` with the current context `N`, a declared name, and
when that text reads back the file loads to a configuration whose current context names
one of its contexts. -/
theorem SetCurrentContext_succeeds_iff (w : World) (D : KubeConfig) (N : String)
    (hload : loadKubeConfig w = .ret (.ok D)) (hw : configWritable w = true) :
    ((∃ w1, SetCurrentContext w N = .ret (none, w1)) ↔ ∃ c ∈ D.Contexts, c.Name = N)
      ∧ ((∀ c ∈ D.Contexts, c.Name ≠ N) →
          (∃ c ∈ D.Contexts, (runes c.Name).map caseFold = (runes N).map caseFold) →
          ∃ msg, SetCurrentContext w N = .ret (some msg, w))
      ∧ (∀ w1, SetCurrentContext w N = .ret (none, w1) →
          configContent w1 = some (w.marshal { D with CurrentContext := N })
          ∧ (∃ c ∈ D.Contexts, c.Name = N)
          ∧ (readsBack w { D with CurrentContext := N } →
              ∃ D1, loadKubeConfig w1 = .ret (.ok D1)
                ∧ ∃ c ∈ D1.Contexts, c.Name = D1.CurrentContext)) := by
  have hmiss : (∀ c ∈ D.Contexts, c.Name ≠ N) →
      SetCurrentContext w N = .ret (some ("context \x27" ++ N ++ "\x27 not found"), w) :=
    fun h => SetCurrentContext_missing w D N hload (not_any_name _ _ h)
  have hiff : (∃ w1, SetCurrentContext w N = .ret (none, w1)) → ∃ c ∈ D.Contexts, c.Name = N := by
    rintro ⟨w1, h1⟩
    by_contra hne
    have hne1 : ∀ c ∈ D.Contexts, c.Name ≠ N := fun c hc hn => hne ⟨c, hc, hn⟩
    rw [hmiss hne1] at h1
    cases h1
  refine ⟨⟨hiff, ?_⟩, ?_, ?_⟩
  · intro hN
    obtain ⟨w1, h1, _⟩ := SetCurrentContext_switch w D N hload hN hw
    exact ⟨w1, h1⟩
  · intro hne _
    exact ⟨_, hmiss hne⟩
  · intro w1 h1
    have hN := hiff ⟨w1, h1⟩
    obtain ⟨w2, h2, hcontent, _, _, hload2⟩ := SetCurrentContext_switch w D N hload hN hw
    rw [h1] at h2
    cases h2
    exact ⟨hcontent, hN, fun hrb => ⟨_, hload2 hrb, hN⟩⟩

theorem SetCurrentContext_succeeds_iff_witness :
    loadKubeConfig sampleWorld = .ret (.ok sampleConfig)
      ∧ configWritable sampleWorld = true
      ∧ ((∃ w1, SetCurrentContext sampleWorld "New-Context" = .ret (none, w1))
          ↔ ∃ c ∈ sampleConfig.Contexts, c.Name = "New-Context")
      ∧ (∀ c ∈ sampleConfig.Contexts, c.Name ≠ "New-Context")
      ∧ (∃ c ∈ sampleConfig.Contexts,
          (runes c.Name).map caseFold = (runes "New-Context").map caseFold)
      ∧ (∃ msg, SetCurrentContext sampleWorld "New-Context" = .ret (some msg, sampleWorld))
      ∧ (∃ w1, SetCurrentContext sampleWorld "new-context" = .ret (none, w1)
          ∧ ∃ D1, loadKubeConfig w1 = .ret (.ok D1)
            ∧ ∃ c ∈ D1.Contexts, c.Name = D1.CurrentContext) := by
  have h := SetCurrentContext_succeeds_iff sampleWorld sampleConfig "New-Context" rfl rfl
  have h2 := SetCurrentContext_succeeds_iff sampleWorld sampleConfig "new-context" rfl rfl
  have hne : ∀ c ∈ sampleConfig.Contexts, c.Name ≠ "New-Context" := by simp [sampleConfig]
  have hcase : ∃ c ∈ sampleConfig.Contexts,
      (runes c.Name).map caseFold = (runes "New-Context").map caseFold :=
    ⟨⟨"new-context", ⟨"c1", "u1", ""⟩⟩, by simp [sampleConfig], by decide⟩
  obtain ⟨w1, hw1⟩ := h2.1.mpr ⟨⟨"new-context", ⟨"c1", "u1", ""⟩⟩, by simp [sampleConfig], rfl⟩
  exact ⟨rfl, rfl, h.1, hne, hcase, h.2.1 hne hcase, w1, hw1, (h2.2.2 w1 hw1).2.2 rfl⟩

/-- C8: `GetKubeConfigPath` returns the value of `KUBECONFIG` itself when the variable
is set to a non-empty value; when it is unset or empty it returns the home directory
joined with `.kube` and `config` (and ends the process if no home directory is known). -/
theorem GetKubeConfigPath_spec (w : World) :
    (∀ v, w.env.lookup "KUBECONFIG" = some v → v ≠ "" → GetKubeConfigPath w = .ret v)
      ∧ ((w.env.lookup "KUBECONFIG" = none ∨ w.env.lookup "KUBECONFIG" = some "") →
          (∀ home, w.userHomeDir = .ok home →
            GetKubeConfigPath w = .ret (w.pathJoin [home, ".kube", "config"]))
          ∧ (∀ e, w.userHomeDir = .error e → ∃ msg, GetKubeConfigPath w = .fatal msg)) := by
  refine ⟨?_, ?_⟩
  · intro v hv hne
    simp [GetKubeConfigPath, Getenv, hv, hne]
  · intro h
    have hg : Getenv w "KUBECONFIG" = "" := by
      rcases h with h | h <;> simp [Getenv, h]
    refine ⟨?_, ?_⟩
    · intro home hh
      simp [GetKubeConfigPath, hg, GetHomeDir, hh]
    · intro e he
      simp [GetKubeConfigPath, hg, GetHomeDir, he]

theorem GetKubeConfigPath_spec_witness :
    GetKubeConfigPath sampleWorld = .ret "/tmp/kube/config"
      ∧ GetKubeConfigPath emptyWorld = .ret "/home/dev/.kube/config" :=
  ⟨(GetKubeConfigPath_spec sampleWorld).1 "/tmp/kube/config" rfl (by decide),
   ((GetKubeConfigPath_spec emptyWorld).2 (Or.inl rfl)).1 "/home/dev" rfl⟩

/-- C9: `shouldRunDirectContextSwitch arg` is `false` exactly when `arg`, with every rune
folded to lower case, is `help`, `version`, `--help`, `-h`, `--version` or `-v` (whatever
the fold tables say outside ASCII): it is `false` for these six words and for their upper
and mixed case forms, and `true` for the empty string, for `  help  `, for `help-me` and
for `version-1`. -/
theorem shouldRunDirectContextSwitch_spec (orbit : Nat → Nat) (arg : String) :
    (shouldRunDirectContextSwitch orbit arg = false
        ↔ ((runes arg).map caseFold = runes "help"
          ∨ (runes arg).map caseFold = runes "version"
          ∨ (runes arg).map caseFold = runes "--help"
          ∨ (runes arg).map caseFold = runes "-h"
          ∨ (runes arg).map caseFold = runes "--version"
          ∨ (runes arg).map caseFold = runes "-v"))
      ∧ shouldRunDirectContextSwitch orbit "" = true
      ∧ shouldRunDirectContextSwitch orbit "  help  " = true
      ∧ shouldRunDirectContextSwitch orbit "help-me" = true
      ∧ shouldRunDirectContextSwitch orbit "version-1" = true
      ∧ shouldRunDirectContextSwitch orbit "help" = false
      ∧ shouldRunDirectContextSwitch orbit "version" = false
      ∧ shouldRunDirectContextSwitch orbit "--help" = false
      ∧ shouldRunDirectContextSwitch orbit "-h" = false
      ∧ shouldRunDirectContextSwitch orbit "--version" = false
      ∧ shouldRunDirectContextSwitch orbit "-v" = false
      ∧ shouldRunDirectContextSwitch orbit "HELP" = false
      ∧ shouldRunDirectContextSwitch orbit "VeRsIoN" = false
      ∧ shouldRunDirectContextSwitch orbit "--Help" = false
      ∧ shouldRunDirectContextSwitch orbit "-H" = false
      ∧ shouldRunDirectContextSwitch orbit "--VERSION" = false
      ∧ shouldRunDirectContextSwitch orbit "-V" = false := by
  refine ⟨?_, rfl, rfl, rfl, rfl, rfl, rfl, rfl, rfl, rfl, rfl, rfl, rfl, rfl, rfl, rfl, rfl⟩
  have h1 := EqualFold_lower orbit arg "help" (by decide)
  have h2 := EqualFold_lower orbit arg "version" (by decide)
  have h3 := EqualFold_lower orbit arg "--help" (by decide)
  have h4 := EqualFold_lower orbit arg "-h" (by decide)
  have h5 := EqualFold_lower orbit arg "--version" (by decide)
  have h6 := EqualFold_lower orbit arg "-v" (by decide)
  simp only [shouldRunDirectContextSwitch, scanExcluded, excludedArgs, h1, h2, h3, h4, h5, h6,
    decide_eq_true_eq]
  constructor
  · intro h
    by_contra hne
    simp only [not_or] at hne
    obtain ⟨n1, n2, n3, n4, n5, n6⟩ := hne
    simp [n1, n2, n3, n4, n5, n6] at h
  · intro h
    split_ifs <;> first | rfl | (exfalso; tauto)

/-- C10, as stated, fails: with no configuration file, `loadKubeConfig` returns the
not-found error; `GetContexts` and `GetCurrentContext` end the process instead of
returning it, and `SetCurrentContext` returns an error with another message. -/
theorem load_failure_not_returned :
    loadKubeConfig emptyWorld
        = .ret (.error "kubeconfig file not found: /home/dev/.kube/config")
      ∧ GetContexts emptyWorld
        = .fatal "failed to load kubeconfig: kubeconfig file not found: /home/dev/.kube/config"
      ∧ GetCurrentContext emptyWorld
        = .fatal "failed to load kubeconfig: kubeconfig file not found: /home/dev/.kube/config"
      ∧ SetCurrentContext emptyWorld "dev"
        = .ret (some
            "failed to load kubeconfig: kubeconfig file not found: /home/dev/.kube/config",
            emptyWorld)
      ∧ "failed to load kubeconfig: kubeconfig file not found: /home/dev/.kube/config"
        ≠ "kubeconfig file not found: /home/dev/.kube/config" :=
  ⟨rfl, rfl, rfl, rfl, by decide⟩

/-- C10, amended: whenever `loadKubeConfig` fails with the error `e`, `GetContexts` and
`GetCurrentContext` end the process with the message `failed to load kubeconfig: e`, and
`SetCurrentContext` returns a new error with that same message and leaves the world as it
was; none of them goes on with a default value. -/
theorem load_failure_reported (w : World) (e N : String)
    (hload : loadKubeConfig w = .ret (.error e)) :
    GetContexts w = .fatal ("failed to load kubeconfig: " ++ e)
      ∧ GetCurrentContext w = .fatal ("failed to load kubeconfig: " ++ e)
      ∧ SetCurrentContext w N = .ret (some ("failed to load kubeconfig: " ++ e), w) := by
  refine ⟨?_, ?_, ?_⟩
  · simp only [GetContexts, hload]
  · simp only [GetCurrentContext, hload]
  · simp only [SetCurrentContext, hload]

theorem load_failure_reported_witness :
    loadKubeConfig emptyWorld
        = .ret (.error "kubeconfig file not found: /home/dev/.kube/config")
      ∧ GetContexts emptyWorld
        = .fatal ("failed to load kubeconfig: "
            ++ "kubeconfig file not found: /home/dev/.kube/config")
      ∧ GetCurrentContext emptyWorld
        = .fatal ("failed to load kubeconfig: "
            ++ "kubeconfig file not found: /home/dev/.kube/config")
      ∧ SetCurrentContext emptyWorld "dev"
        = .ret (some ("failed to load kubeconfig: "
            ++ "kubeconfig file not found: /home/dev/.kube/config"), emptyWorld) :=
  ⟨rfl, load_failure_reported emptyWorld _ "dev" rfl⟩

/-! ### The current context and the root command -/

theorem decodeKubeConfig_currentContext (root : Yaml) (D : KubeConfig)
    (h : decodeKubeConfig root = .ok D) :
    getField "current-context" "" decodeString root.entries = .ok D.CurrentContext := by
  cases root with
  | scalar t v =>
    cases t <;> simp [decodeKubeConfig, decodeStruct] at h
    subst h
    rfl
  | seq items => simp [decodeKubeConfig, decodeStruct] at h
  | map es =>
    simp only [decodeKubeConfig, decodeStruct] at h
    split at h
    · repeat (split at h; · cases h)
      cases h
      simp only [Yaml.entries]
      assumption
    · cases h

theorem configRoot_decode (w : World) (D : KubeConfig) (root : Yaml)
    (hload : loadKubeConfig w = .ret (.ok D)) (hroot : configRoot w = some root) :
    decodeKubeConfig root = .ok D := by
  obtain ⟨p, f, hp, hf, _, hu⟩ := loadKubeConfig_ok w D hload
  obtain ⟨content, readErr, writeErr⟩ := f
  simp only [configRoot, hp, hf] at hroot
  cases content with
  | malformed e => simp at hroot
  | doc r =>
    simp only [Option.some.injEq] at hroot
    subst hroot
    exact hu

theorem GetContexts_of_load (w : World) (D : KubeConfig)
    (h : loadKubeConfig w = .ret (.ok D)) :
    GetContexts w = .ret (sortStrings (D.Contexts.map (fun context => context.Name))) := by
  simp only [GetContexts, h]

theorem containsName_sortStrings (l : List String) (N : String) :
    containsName (sortStrings l) N = containsName l N := by
  rw [Bool.eq_iff_iff]
  simp only [containsName, List.any_eq_true, beq_iff_eq]
  constructor
  · rintro ⟨x, hx, rfl⟩
    exact ⟨x, (sortStrings_perm l).mem_iff.mp hx, rfl⟩
  · rintro ⟨x, hx, rfl⟩
    exact ⟨x, (sortStrings_perm l).mem_iff.mpr hx, rfl⟩

theorem containsName_names (cs : List Context) (N : String) :
    containsName (cs.map (fun context => context.Name)) N
      = cs.any (fun context => context.Name == N) := by
  induction cs with
  | nil => rfl
  | cons c cs ih =>
    simp only [containsName, List.map_cons, List.any_cons] at ih ⊢
    rw [ih]

/-! ## The claims, continued -/

/-- C11: when the file loads to `D`, `GetCurrentContext` returns the current context of
`D` and does not end the process: the empty string when the document has no
`current-context` key or a null there, the text of the scalar stored there otherwise,
and this also when no entry of `D.Contexts` has that name. -/
theorem GetCurrentContext_spec (w : World) (D : KubeConfig)
    (hload : loadKubeConfig w = .ret (.ok D)) :
    GetCurrentContext w = .ret D.CurrentContext
      ∧ (∀ root, configRoot w = some root →
          root.entries.lookup "current-context" = none → GetCurrentContext w = .ret "")
      ∧ (∀ root v, configRoot w = some root →
          root.entries.lookup "current-context" = some (.scalar .null v) →
          GetCurrentContext w = .ret "")
      ∧ (∀ root tag v, configRoot w = some root →
          root.entries.lookup "current-context" = some (.scalar tag v) → tag ≠ .null →
          GetCurrentContext w = .ret v)
      ∧ ((∀ c ∈ D.Contexts, c.Name ≠ D.CurrentContext) →
          GetCurrentContext w = .ret D.CurrentContext) := by
  have hget := GetCurrentContext_of_load w D hload
  refine ⟨hget, ?_, ?_, ?_, fun _ => hget⟩
  · intro root hroot hnone
    have h := decodeKubeConfig_currentContext root D (configRoot_decode w D root hload hroot)
    simp only [getField, hnone] at h
    rw [hget, ← Except.ok.inj h]
  · intro root v hroot hsome
    have h := decodeKubeConfig_currentContext root D (configRoot_decode w D root hload hroot)
    simp only [getField, hsome, decodeString] at h
    rw [hget, ← Except.ok.inj h]
  · intro root tag v hroot hsome htag
    have h := decodeKubeConfig_currentContext root D (configRoot_decode w D root hload hroot)
    simp only [getField, hsome] at h
    cases tag <;> simp only [decodeString] at h <;> first | exact absurd rfl htag | skip
    all_goals rw [hget, ← Except.ok.inj h]

theorem GetCurrentContext_spec_witness :
    loadKubeConfig (worldWith danglingRoot) = .ret (.ok danglingConfig)
      ∧ (∀ c ∈ danglingConfig.Contexts, c.Name ≠ danglingConfig.CurrentContext)
      ∧ GetCurrentContext (worldWith danglingRoot) = .ret "ghost"
      ∧ configRoot (worldWith unsetRoot) = some unsetRoot
      ∧ unsetRoot.entries.lookup "current-context" = none
      ∧ GetCurrentContext (worldWith unsetRoot) = .ret "" :=
  have h1 := GetCurrentContext_spec (worldWith danglingRoot) danglingConfig rfl
  have h2 := GetCurrentContext_spec (worldWith unsetRoot)
    { ApiVersion := "v1", Kind := "Config", CurrentContext := "",
      Contexts := [⟨"dev", ⟨"c1", "u1", ""⟩⟩], Clusters := [], Users := [],
      Preferences := [] } rfl
  have hne : ∀ c ∈ danglingConfig.Contexts, c.Name ≠ danglingConfig.CurrentContext := by
    simp [danglingConfig]
  ⟨rfl, hne, h1.2.2.2.2 hne, rfl, rfl, h2.2.1 unsetRoot rfl rfl⟩

/-- C12: when the file loads to `D`, the check of the root command (the name `N` occurs
in the list `GetContexts` returns) fails exactly when `SetCurrentContext N`, on the same
world, returns the not-found error, which it does with the world unchanged; so the check
holds exactly when the search of `SetCurrentContext` finds `N`, that is when some entry
of `D.Contexts` has the name `N`. When the check holds, `SetCurrentContext N` does not
return the not-found error, and the run with `N` as argument calls it once and goes on
with what it returns. When the check fails, the run prints the not-found line, calls
`SetCurrentContext` with no name and leaves the world as it was. -/
theorem directSwitch_precheck (orbit : Nat → Nat) (ui : Terminal) (w : World)
    (D : KubeConfig) (N : String) (rest : List String)
    (hload : loadKubeConfig w = .ret (.ok D)) :
    ∃ names, GetContexts w = .ret names
      ∧ (containsName names N = false
          ↔ SetCurrentContext w N = .ret (some (notFoundMessage N), w))
      ∧ (containsName names N = true
          ↔ ∀ r, SetCurrentContext w N = .ret r → r.1 ≠ some (notFoundMessage N))
      ∧ (containsName names N = true ↔ ∃ c ∈ D.Contexts, c.Name = N)
      ∧ (shouldRunDirectContextSwitch orbit N = true → containsName names N = true →
          rootCmdRun orbit ui false (N :: rest) w
            = match SetCurrentContext w N with
              | .fatal m => .fatal m
              | .ret (some err, _) => .fatal ("Failed to switch context: " ++ err)
              | .ret (none, w1) =>
                .ret ⟨["Switched to context \x27" ++ ui.green N ++ "\x27\n"], [N], w1⟩)
      ∧ (shouldRunDirectContextSwitch orbit N = true → containsName names N = false →
          rootCmdRun orbit ui false (N :: rest) w
            = .ret ⟨["Context \x27" ++ ui.red N ++ "\x27 not found\n"], [], w⟩) := by
  have hget := GetContexts_of_load w D hload
  have hc : containsName (sortStrings (D.Contexts.map (fun context => context.Name))) N
      = D.Contexts.any (fun context => context.Name == N) := by
    rw [containsName_sortStrings, containsName_names]
  have hfound : D.Contexts.any (fun context => context.Name == N) = true →
      ∀ r, SetCurrentContext w N = .ret r → r.1 ≠ some (notFoundMessage N) := by
    intro hany r hr
    rcases SetCurrentContext_found_cases w D N hload hany with ⟨w1, h1⟩ | ⟨msg, w1, h1⟩
    · rw [h1] at hr
      cases hr
      simp
    · rw [h1] at hr
      cases hr
      intro h
      exact writeError_ne_notFound msg N (Option.some.inj h)
  have hmissing : D.Contexts.any (fun context => context.Name == N) = false →
      SetCurrentContext w N = .ret (some (notFoundMessage N), w) :=
    fun hany => SetCurrentContext_missing w D N hload hany
  refine ⟨_, hget, ?_, ?_, ?_, ?_, ?_⟩
  · rw [hc]
    constructor
    · exact hmissing
    · intro hset
      cases hany : D.Contexts.any (fun context => context.Name == N) with
      | false => rfl
      | true => exact absurd rfl (hfound hany _ hset)
  · rw [hc]
    constructor
    · exact hfound
    · intro hall
      cases hany : D.Contexts.any (fun context => context.Name == N) with
      | true => rfl
      | false => exact absurd rfl (hall _ (hmissing hany))
  · rw [hc]
    exact any_name_iff D.Contexts N
  · intro hrun hcontains
    simp only [rootCmdRun, hrun, directSwitch, hget, hcontains]
    rfl
  · intro hrun hcontains
    simp only [rootCmdRun, hrun, directSwitch, hget, hcontains]
    rfl

theorem directSwitch_precheck_witness :
    loadKubeConfig sampleWorld = .ret (.ok sampleConfig)
      ∧ shouldRunDirectContextSwitch id "missing-context" = true
      ∧ GetContexts sampleWorld = .ret ["new-context", "old-context"]
      ∧ containsName ["new-context", "old-context"] "missing-context" = false
      ∧ SetCurrentContext sampleWorld "missing-context"
          = .ret (some (notFoundMessage "missing-context"), sampleWorld)
      ∧ rootCmdRun id plainTerminal false ["missing-context"] sampleWorld
          = .ret ⟨["Context \x27missing-context\x27 not found\n"], [], sampleWorld⟩ := by
  have h := directSwitch_precheck id plainTerminal sampleWorld sampleConfig
    "missing-context" [] rfl
  obtain ⟨names, hnames, hfail, _, _, _, hrun⟩ := h
  have hn : names = ["new-context", "old-context"] := by
    have h0 : GetContexts sampleWorld = .ret ["new-context", "old-context"] := rfl
    rw [h0] at hnames
    cases hnames
    rfl
  subst hn
  exact ⟨rfl, rfl, rfl, rfl, hfail.mp rfl, hrun rfl rfl⟩

end Kubec
